import Mathlib

/-!
Verification of the STABS decoder in `src/stabs.c` (libbfd).

The definitions below are a shallow embedding of the C source: C strings
become `List Char` cursors (the empty list plays the role of the NUL
terminator / `p_end`), the mutable `struct stab_handle` becomes an explicit
`State` record threaded through every function, `debug_type` handles become
values of the inductive `DebugType` (the C `DEBUG_TYPE_NULL` null pointer
becomes `none` of `Option DebugType`), and calls into the external debug
sink (`debug.c`, which is not part of this repository's sources) are
modelled from the specification as either pure value constructors or
events appended to `State.events`.

Machine integers: `bfd_vma` is 64 bits on the configured target
(`config.h`: x86_64-pc-linux-gnu, SIZEOF_LONG = 8), so values parsed from
strings are `Nat`s reduced mod 2^64, and `bfd_signed_vma` views are Ints
obtained by two's-complement reinterpretation.  C `int`/`unsigned int`
casts are taken mod 2^32 where they occur in the source.
-/

namespace Stabs

/-- Two's-complement reinterpretation of a 64-bit unsigned value
(`(bfd_signed_vma) v` in the source). -/
def toSigned64 (n : Nat) : Int :=
  if n < 2 ^ 63 then (n : Int) else (n : Int) - 2 ^ 64

/-- C conversion of a (possibly negative) `int` value to `unsigned int`
(used when `stab_find_slot` assigns `typenums[i]` to `unsigned int`). -/
def toUInt32Nat (i : Int) : Nat :=
  (i % (2 ^ 32 : Int)).toNat

/-- C truncating cast of a 64-bit unsigned value to `int`
(used by `parse_stab_type_number`). -/
def toInt32 (n : Nat) : Int :=
  toSigned64 ((n % 2 ^ 32) + (if n % 2 ^ 32 < 2 ^ 31 then 0 else (2 ^ 64 - 2 ^ 32)))

/-- ISDIGIT from safe-ctype.h. -/
def isDigitC (c : Char) : Bool := '0' ≤ c && c ≤ '9'

/-- Address of an in-place-rewritable type slot: either a numbered slot of
the per-file type tables (`stab_types::types`), or the `slot` field of an
undefined-tag entry (`stab_tag::slot`).  An indirect type holds such an
address; redirection overwrites the addressed slot (spec §9: arena index
plus in-place overwrite). -/
inductive SlotAddr
  | typeSlot (filenum tindex : Nat)
  | tagSlot (idx : Nat)
deriving DecidableEq, Repr

/-- Variable storage kinds from the sink interface (`enum debug_var_kind`).
Modelled from the spec: the sink records global/static/local-static/local/
register variables; only the identity of the kind matters here. -/
inductive VarKind
  | global
  | static
  | localStatic
  | loc
  | register
deriving DecidableEq, Repr

/-- Tag kinds (`enum debug_type_kind` restricted to the values the decoder
stores in `stab_tag::kind`): struct, union, enum, or the illegal/unknown
placeholder. -/
inductive TagKind
  | structK
  | unionK
  | enumK
  | illegal
deriving DecidableEq, Repr

/-- Type handles produced through the sink.  Each constructor models one
`debug_make_*` sink call from the source; the sink itself (debug.c) is
external to this repository, so the constructors are modelled from the
spec as opaque structure builders.  The boolean of `intT` is the
`unsignedp` argument of `debug_make_int_type`: the source's own XCOFF
builtin table (`stab_xcoff_builtin_type`) pairs `false` with the names
"int"/"char" and `true` with "unsigned int"/"unsigned char", fixing the
convention that `true` means unsigned.  `unmodeled` marks results of
source paths outside the scope of this development (never reached by any
theorem below). -/
inductive DebugType
  | voidT
  | intT (size : Nat) (unsignedp : Bool)
  | floatT (size : Nat)
  | complexT (size : Nat)
  | indirect (addr : SlotAddr) (tagname : Option (List Char))
  | rangeT (index : DebugType) (low high : Int)
  | pointer (t : DebugType)
  | reference (t : DebugType)
  | functionT (ret : DebugType)
  | constT (t : DebugType)
  | volatileT (t : DebugType)
  | setT (t : DebugType) (bitstringp : Bool)
  | offsetT (domain memtype : DebugType)
  | methodT (ret : DebugType) (domain : Option DebugType)
      (args : Option (List DebugType)) (varargs : Bool)
  | taggedT (name : List Char) (t : DebugType)
  | namedT (name : List Char) (t : DebugType)
  | unmodeled (tag : String)

/-- Observable effects: sink calls that record entities, plus the decoder's
own diagnostic prints (`bad_stab`, `warn_stab`, and the out-of-range
`fprintf` in `stab_find_slot`).  Stored in emission order (oldest first). -/
inductive Event
  | recordVariable (name : List Char) (t : DebugType) (kind : VarKind) (val : Nat)
  | startSource (name : List Char)
  | setFilename (name : List Char)
  | recordTypeSize (t : DebugType) (size : Nat)
  | badStab (s : List Char)
  | warnStab (err : String)
  | typeFileOutOfRange (filenum : Nat)

/-- One 16-slot chunk of a per-file type table (`struct stab_types`). -/
structure StabTypesChunk where
  base_index : Nat
  types : List (Option DebugType)

/-- An undefined-tag entry (`struct stab_tag`).  `slot` is the in-place
redirect target; `typ` caches the indirect type created to point at it. -/
structure StabTag where
  name : List Char
  kind : TagKind
  slot : Option DebugType
  typ : DebugType

/-- An N_BINCL frame (`struct bincl_file`).  Frames live in an arena
(allocation order) because the C nodes are linked into both the session
list and the include stack and are mutated in place by `pop_bincl`. -/
structure BinclFile where
  name : List Char
  hash : Nat
  file : Nat
  file_types : List StabTypesChunk

instance : Inhabited BinclFile := ⟨⟨[], 0, 0, []⟩⟩

/-- A queued variable definition (`struct stab_pending_var`). -/
structure PendingVar where
  name : List Char
  typ : DebugType
  kind : VarKind
  val : Nat

/-- The decode-session state (`struct stab_handle` plus the modelled sink
state).  `pending`, `bincl_list`, `bincl_stack` and `tagList` keep the C
linked-list order: most recently pushed element first.  `sinkTags` models
the sink's own store of tagged types consulted by
`debug_find_tagged_type` (debug.c, modelled from the spec). -/
structure State where
  files : Nat
  file_types : List (List StabTypesChunk)
  tagArena : List StabTag
  tagList : List Nat
  pending : List PendingVar
  binclArena : List BinclFile
  bincl_list : List Nat
  bincl_stack : List Nat
  within_function : Bool
  gcc_compiled : Nat
  n_opt_found : Bool
  self_crossref : Bool
  sections : Bool
  file_start_offset : Nat
  function_start_offset : Nat
  main_filename : List Char
  so_string : Option (List Char)
  so_value : Nat
  sinkTags : List (List Char × DebugType)
  events : List Event

/-- Append one observable event. -/
def emit (st : State) (e : Event) : State :=
  { st with events := st.events ++ [e] }

/-! ### Type Number Registry (`stab_find_slot`, `stab_find_type`, `stab_record_type`) -/

/-- Base index of the chunk holding type index `tindex`
(`tindex / STAB_TYPES_SLOTS * STAB_TYPES_SLOTS` with STAB_TYPES_SLOTS = 16). -/
def chunkBase (tindex : Nat) : Nat := tindex / 16 * 16

/-- The chunk-list walk of `stab_find_slot`: advance past chunks whose
`base_index` is smaller, and splice in a fresh zeroed chunk when the walk
stops short of an exact match. -/
def ensureChunk : List StabTypesChunk → Nat → List StabTypesChunk
  | [], tb => [⟨tb, List.replicate 16 none⟩]
  | c :: rest, tb =>
    if c.base_index < tb then c :: ensureChunk rest tb
    else if c.base_index = tb then c :: rest
    else ⟨tb, List.replicate 16 none⟩ :: c :: rest

/-- Dereference the slot for type index `t`, walking exactly as
`stab_find_slot` does. -/
def chunkRead : List StabTypesChunk → Nat → Option DebugType
  | [], _ => none
  | c :: rest, t =>
    if c.base_index < chunkBase t then chunkRead rest t
    else if c.base_index = chunkBase t then c.types.getD (t - c.base_index) none
    else none

/-- Store through the slot for type index `t` (the `*slot = type` of
`stab_record_type`, or the `*slot = dtype` writes in `parse_stab_string`). -/
def chunkWrite : List StabTypesChunk → Nat → DebugType → List StabTypesChunk
  | [], _, _ => []
  | c :: rest, t, ty =>
    if c.base_index < chunkBase t then c :: chunkWrite rest t ty
    else if c.base_index = chunkBase t then
      { c with types := c.types.set (t - c.base_index) (some ty) } :: rest
    else c :: rest

/-- Read the slot addressed by `(filenum, tindex)` in the session state. -/
def readSlot (st : State) (filenum tindex : Nat) : Option DebugType :=
  chunkRead (st.file_types.getD filenum []) tindex

/-- Overwrite the slot addressed by `(filenum, tindex)`. -/
def writeSlot (st : State) (filenum tindex : Nat) (ty : DebugType) : State :=
  { st with
    file_types :=
      st.file_types.set filenum
        (chunkWrite (st.file_types.getD filenum []) tindex ty) }

/-- `stab_find_slot`: checks the file index against `info->files` (printing
the out-of-range error and returning NULL on failure), then materialises
the chunk for the requested index and returns the slot's address. -/
def stab_find_slot (st : State) (tn : Int × Int) : State × Option (Nat × Nat) :=
  let filenum := toUInt32Nat tn.1
  let tindex := toUInt32Nat tn.2
  if st.files ≤ filenum then (emit st (.typeFileOutOfRange filenum), none)
  else
    let chunks := st.file_types.getD filenum []
    let chunks' := ensureChunk chunks (chunkBase tindex)
    ({ st with file_types := st.file_types.set filenum chunks' }, some (filenum, tindex))

/-- `stab_find_type`: negative type numbers of file 0 are XCOFF builtins
(outside this development's scope); otherwise an empty slot yields a fresh
indirect type pointing at the slot (`debug_make_indirect_type` with a NULL
name), and a filled slot yields its contents. -/
def stab_find_type (st : State) (tn : Int × Int) : State × Option DebugType :=
  if tn.1 = 0 ∧ tn.2 < 0 then (st, some (.unmodeled "xcoff-builtin"))
  else
    match stab_find_slot st tn with
    | (st1, none) => (st1, none)
    | (st1, some (f, t)) =>
      match readSlot st1 f t with
      | none => (st1, some (.indirect (.typeSlot f t) none))
      | some ty => (st1, some ty)

/-- `stab_record_type`: overwrites the slot unconditionally ("gdb appears
to ignore type redefinitions, so we do as well"), failing only when
`stab_find_slot` failed. -/
def stab_record_type (st : State) (tn : Int × Int) (ty : DebugType) : State × Bool :=
  match stab_find_slot st tn with
  | (st1, none) => (st1, false)
  | (st1, some (f, t)) => (writeSlot st1 f t ty, true)

/-- Modelled from the spec: resolving an indirect handle reads the slot it
points at (`debug.c`'s indirect types are "redirected in place"; spec §3:
a slot holds either a resolved handle or a placeholder later redirected).
Non-indirect handles resolve to themselves. -/
def resolveIndirect (st : State) (ty : DebugType) : Option DebugType :=
  match ty with
  | .indirect (.typeSlot f t) _ => readSlot st f t
  | .indirect (.tagSlot i) _ => (st.tagArena.getD i ⟨[], .illegal, none, .voidT⟩).slot
  | t => some t

/-! ### Pending variables (`stab_record_variable`, `stab_emit_pending_vars`) -/

/-- Modelled from the spec: the sink call `debug_record_variable` records
one variable and reports success. -/
def debug_record_variable (st : State) (name : List Char) (ty : DebugType)
    (kind : VarKind) (val : Nat) : State × Bool :=
  (emit st (.recordVariable name ty kind val), true)

/-- `stab_record_variable`: global/static variables, variables outside a
function, and variables in non-gcc units after N_OPT go straight to the
sink; all other in-function variables are pushed onto the head of the
pending list to wait for the block's N_LBRAC. -/
def stab_record_variable (st : State) (name : List Char) (ty : DebugType)
    (kind : VarKind) (val : Nat) : State × Bool :=
  if (kind = .global ∨ kind = .static)
      ∨ ¬ st.within_function
      ∨ (st.gcc_compiled = 0 ∧ st.n_opt_found) then
    debug_record_variable st name ty kind val
  else
    ({ st with pending := ⟨name, ty, kind, val⟩ :: st.pending }, true)

/-- `stab_emit_pending_vars`: walks the pending list from its head (the
most recently queued variable) emitting each entry, then clears the list.
The modelled sink never fails, so the C early-return-on-failure path is
vacuous here. -/
def stab_emit_pending_vars (st : State) : State × Bool :=
  let st1 := st.pending.foldl
    (fun s v => (debug_record_variable s v.name v.typ v.kind v.val).1) st
  ({ st1 with pending := [] }, true)

/-! ### Include-file frames (`push_bincl`, `pop_bincl`, `find_excl`) -/

/-- `push_bincl`: allocates a frame linked onto both the session-lifetime
list and the include stack, records the new file index, and grows the
per-file table array by one NULL entry. -/
def push_bincl (st : State) (name : List Char) (hash : Nat) : State :=
  let n : BinclFile := ⟨name, hash, st.files, []⟩
  let idx := st.binclArena.length
  { st with
    binclArena := st.binclArena ++ [n]
    bincl_list := idx :: st.bincl_list
    bincl_stack := idx :: st.bincl_stack
    files := st.files + 1
    file_types := st.file_types ++ [[]] }

/-- `pop_bincl`: with an empty stack, returns the main file name and leaves
the state untouched; otherwise pops the top frame, snapshots the frame's
file table from the live array (unless its file index is out of range),
and returns the name now on top of the stack (or the main file name). -/
def pop_bincl (st : State) : State × List Char :=
  match st.bincl_stack with
  | [] => (st, st.main_filename)
  | o :: rest =>
    let st1 := { st with bincl_stack := rest }
    let ob := st.binclArena.getD o default
    if st1.files ≤ ob.file then (st1, st1.main_filename)
    else
      let ob' := { ob with file_types := st1.file_types.getD ob.file [] }
      let st2 := { st1 with binclArena := st1.binclArena.set o ob' }
      match st2.bincl_stack with
      | [] => (st2, st2.main_filename)
      | t :: _ => (st2, (st2.binclArena.getD t default).name)

/-- `find_excl`: grows the file array by one entry, then walks the
session-lifetime frame list (most recent frame first) for the first frame
whose hash and name both match; on a hit the new file shares that frame's
table, otherwise an "Undefined N_EXCL" warning is printed and the new
file's table is NULL.  Both outcomes report success. -/
def find_excl (st : State) (name : List Char) (hash : Nat) : State × Bool :=
  let found := st.bincl_list.find? fun i =>
    match st.binclArena.get? i with
    | some l => l.hash == hash && l.name == name
    | none => false
  match found with
  | some i =>
    ({ st with
        files := st.files + 1
        file_types := st.file_types ++ [(st.binclArena.getD i default).file_types] },
      true)
  | none =>
    (emit
      { st with files := st.files + 1, file_types := st.file_types ++ [[]] }
      (.warnStab "Undefined N_EXCL"), true)

/-! ### Numeric literals (`parse_number`) -/

/-- Whitespace test used by `strtoul`. -/
def isSpaceC (c : Char) : Bool :=
  c = ' ' || c = '\t' || c = '\n' || c = '\x0b' || c = '\x0c' || c = '\r'

/-- Digit value of `c` in the given base, if any. -/
def digitVal (base : Nat) (c : Char) : Option Nat :=
  let v :=
    if isDigitC c then some (c.toNat - '0'.toNat)
    else if 'a' ≤ c ∧ c ≤ 'z' then some (c.toNat - 'a'.toNat + 10)
    else if 'A' ≤ c ∧ c ≤ 'Z' then some (c.toNat - 'A'.toNat + 10)
    else none
  match v with
  | some d => if d < base then some d else none
  | none => none

/-- Accumulate digits of the given base, returning the exact (unbounded)
accumulated value, whether any digit was consumed, and the rest. -/
def accumDigits (base : Nat) : List Char → Nat → Bool → Nat × Bool × List Char
  | [], acc, got => (acc, got, [])
  | c :: rest, acc, got =>
    match digitVal base c with
    | some d => accumDigits base rest (acc * base + d) true
    | none => (acc, got, c :: rest)

/-- C `strtoul` with base 0 on a 64-bit `unsigned long`: skip whitespace,
read an optional sign, auto-detect the base (`0x` hex, leading `0` octal,
else decimal), and accumulate.  Returns the converted value (clamped to
`ULONG_MAX` with the overflow flag set when the exact value exceeds 64
bits, and negated mod 2^64 for a leading minus sign) plus the unconsumed
rest; when no digit is consumed the cursor is left at the start. -/
def strtoul64 (cs : List Char) : Nat × Bool × List Char :=
  let afterWS := cs.dropWhile isSpaceC
  let (neg, afterSign) :=
    match afterWS with
    | '-' :: r => (true, r)
    | '+' :: r => (false, r)
    | r => (false, r)
  let (base, digits) :=
    match afterSign with
    | '0' :: x :: r =>
      if (x = 'x' ∨ x = 'X') ∧ (r.headD ' ' |> fun c => (digitVal 16 c).isSome) then
        (16, r)
      else (8, '0' :: x :: r)
    | '0' :: r => (8, '0' :: r)
    | r => (10, r)
  let (acc, got, rest) := accumDigits base digits 0 false
  if ¬ got then (0, false, cs)
  else if 2 ^ 64 ≤ acc then (2 ^ 64 - 1, true, rest)
  else if neg then ((2 ^ 64 - acc) % 2 ^ 64, false, rest)
  else (acc, false, rest)

/-- `parse_number`: an empty cursor (at or past `p_end`, or at the NUL
terminator) yields zero; a value `strtoul` converts without overflow is
returned as-is (the sign-extension cast in the source is the identity when
`bfd_vma` and `unsigned long long` are both 64 bits, and the wider
fallback path is compiled out for the same reason); on overflow the result
is clamped to zero and the condition is reported through the caller's flag
when one was passed (`hasFlag = true`) or as a direct warning otherwise. -/
def parse_number (st : State) (cs : List Char) (hasFlag : Bool) :
    State × Nat × Bool × List Char :=
  if cs.isEmpty then (st, 0, false, cs)
  else
    let (ul, ov, rest) := strtoul64 cs
    if ¬ ov then (st, ul, false, rest)
    else if hasFlag then (st, 0, true, rest)
    else (emit st (.warnStab "numeric overflow"), 0, false, rest)

/-! ### Type numbers and range types -/

/-- Reading `**pp` through the NUL terminator: an exhausted cursor reads
the terminating NUL. -/
def peek (cs : List Char) : Char := cs.headD '\x00'

/-- `parse_stab_type_number`: either a bare number (equivalent to file 0)
or a parenthesised `(file,index)` pair; the numbers go through
`parse_number` with no overflow flag (so overflow warns directly) and are
truncated to C `int`. -/
def parse_stab_type_number (st : State) (cs : List Char) :
    State × Option ((Int × Int) × List Char) :=
  let orig := cs
  if peek cs ≠ '(' then
    let (st1, v, _, rest) := parse_number st cs false
    (st1, some ((0, toInt32 v), rest))
  else
    let (st1, v0, _, cs2) := parse_number st cs.tail false
    if peek cs2 ≠ ',' then (emit st1 (.badStab orig), none)
    else
      let (st2, v1, _, cs4) := parse_number st1 cs2.tail false
      if peek cs4 ≠ ')' then (emit st2 (.badStab orig), none)
      else (st2, some ((toInt32 v0, toInt32 v1), cs4.tail))

/-- The `LLLOW` literal of `parse_stab_range_type` (octal minimum of a
64-bit signed long long, with its terminating semicolon). -/
def llLowText : List Char := "01000000000000000000000;".data

/-- The `LLHIGH` literal (octal maximum of a 64-bit signed long long). -/
def llHighText : List Char := "0777777777777777777777;".data

/-- The `ULLHIGH` literal (octal maximum of a 64-bit unsigned long long). -/
def ullHighText : List Char := "01777777777777777777777;".data

/-- Two's-complement wraparound of 64-bit signed arithmetic (the source
computes `- n3 - 1` and `n3 + 1` on `bfd_signed_vma`). -/
def wrap64 (i : Int) : Int :=
  let m := i % (2 ^ 64 : Int)
  if m < 2 ^ 63 then m else m - 2 ^ 64

/-- Tail of `parse_stab_range_type` reached when no special bound pattern
matched: a still-self-referential range is a bad stab; otherwise the index
type is looked up from the subrange base number (warning and substituting
a 4-byte signed int if that somehow yields NULL) and an ordinary range
type is built. -/
def rangeFallback (st : State) (self_subrange : Bool) (rangenums : Int × Int)
    (n2 n3 : Int) (orig : List Char) : State × Option DebugType :=
  if self_subrange then (emit st (.badStab orig), none)
  else
    match stab_find_type st rangenums with
    | (st1, none) =>
      (emit st1 (.warnStab "missing index type"),
        some (.rangeT (.intT 4 false) n2 n3))
    | (st1, some ity) => (st1, some (.rangeT ity n2 n3))

/-- The bound-pattern table of `parse_stab_range_type` (everything after
the two bounds have been read, except the overflow special case): void,
complex, float, the (0,-1) unsigned-int name hint, self-referential
0..127, the unsigned magic bounds, negative-byte-count encodings, and the
signed magic bounds, falling back to an ordinary range type. -/
def rangeMain (st : State) (type_name : Option (List Char))
    (self_subrange : Bool) (rangenums : Int × Int) (index_type : Option DebugType)
    (n2 n3 : Int) (orig : List Char) : State × Option DebugType :=
  if index_type.isNone then
    if self_subrange ∧ n2 = 0 ∧ n3 = 0 then (st, some .voidT)
    else if self_subrange ∧ n3 = 0 ∧ 0 < n2 then
      (st, some (.complexT (toUInt32Nat n2)))
    else if n3 = 0 ∧ 0 < n2 then (st, some (.floatT (toUInt32Nat n2)))
    else if n2 = 0 ∧ n3 = -1 then
      if type_name = some "long long int".data then (st, some (.intT 8 false))
      else if type_name = some "long long unsigned int".data then
        (st, some (.intT 8 true))
      else (st, some (.intT 4 true))
    else if self_subrange ∧ n2 = 0 ∧ n3 = 127 then (st, some (.intT 1 false))
    else if n2 = 0 then
      if n3 < 0 then (st, some (.intT (toUInt32Nat (-n3)) true))
      else if n3 = 0xff then (st, some (.intT 1 true))
      else if n3 = 0xffff then (st, some (.intT 2 true))
      else if n3 = 0xffffffff then (st, some (.intT 4 true))
      else if n3 = toSigned64 0xffffffffffffffff then (st, some (.intT 8 true))
      else rangeFallback st self_subrange rangenums n2 n3 orig
    else if n3 = 0 ∧ n2 < 0 ∧ (self_subrange ∨ n2 = -8) then
      (st, some (.intT (toUInt32Nat (-n2)) true))
    else if n2 = wrap64 (-n3 - 1) ∨ n2 = wrap64 (n3 + 1) then
      if n3 = 0x7f then (st, some (.intT 1 false))
      else if n3 = 0x7fff then (st, some (.intT 2 false))
      else if n3 = 0x7fffffff then (st, some (.intT 4 false))
      else if n3 = 0x7fffffffffffffff then (st, some (.intT 8 false))
      else rangeFallback st self_subrange rangenums n2 n3 orig
    else rangeFallback st self_subrange rangenums n2 n3 orig
  else rangeFallback st self_subrange rangenums n2 n3 orig

/-- Bound synthesis of `parse_stab_range_type` including the
overflow-handling prelude: when either bound overflowed, first try the
gcc long-long octal spellings, then warn and fall through to the main
pattern table with the clamped values. -/
def rangeSynthesis (st : State) (type_name : Option (List Char))
    (self_subrange : Bool) (rangenums : Int × Int) (index_type : Option DebugType)
    (s2 s3 : List Char) (n2 n3 : Int) (ov2 ov3 : Bool) (orig : List Char) :
    State × Option DebugType :=
  if ov2 || ov3 then
    if index_type.isNone ∧ llLowText.isPrefixOf s2 ∧ llHighText.isPrefixOf s3 then
      (st, some (.intT 8 false))
    else if index_type.isNone ∧ ¬ ov2 ∧ n2 = 0 ∧ ullHighText.isPrefixOf s3 then
      (st, some (.intT 8 true))
    else
      rangeMain (emit st (.warnStab "numeric overflow")) type_name self_subrange
        rangenums index_type n2 n3 orig
  else rangeMain st type_name self_subrange rangenums index_type n2 n3 orig

/-- `parse_stab_range_type`: reads the subrange base type number, detects
self-reference against the type number being defined, skips the optional
semicolon, reads the two bound literals (collecting their overflow flags
and remembering where each literal started for the long-long spelling
test), and synthesises the resulting type.  The branch taken when the base
number is followed by `=` (an inline explicit index type) re-enters the
full type parser and is outside the scope of this development. -/
def parse_stab_range_type (st : State) (type_name : Option (List Char))
    (cs : List Char) (typenums : Int × Int) :
    State × Option DebugType × List Char :=
  let orig := cs
  if cs.isEmpty then (st, none, cs)
  else
    match parse_stab_type_number st cs with
    | (st1, none) => (st1, none, cs)
    | (st1, some ((rf, rt), cs1)) =>
      let self_subrange := rf = typenums.1 ∧ rt = typenums.2
      if peek cs1 = '=' then (st1, some (.unmodeled "range-explicit-index"), cs1)
      else
        let cs2 := if peek cs1 = ';' then cs1.tail else cs1
        let s2 := cs2
        let (st2, n2b, ov2, cs3) := parse_number st1 cs2 true
        if peek cs3 ≠ ';' then (emit st2 (.badStab orig), none, cs3)
        else
          let s3 := cs3.tail
          let (st3, n3b, ov3, cs5) := parse_number st2 cs3.tail true
          if peek cs5 ≠ ';' then (emit st3 (.badStab orig), none, cs5)
          else
            let (st4, res) :=
              rangeSynthesis st3 type_name self_subrange (rf, rt) none s2 s3
                (toSigned64 n2b) (toSigned64 n3b) ov2 ov3 orig
            (st4, res, cs5.tail)

/-! ### Tag references (`stab_find_tagged_type`) -/

instance : Inhabited StabTag := ⟨⟨[], .illegal, none, .voidT⟩⟩

/-- Modelled from the spec: the sink's `debug_find_tagged_type` (debug.c)
looks an already-recorded tagged type up by name; the decoder passes
`DEBUG_KIND_ILLEGAL` so every tag namespace is searched. -/
def debug_find_tagged_type (st : State) (name : List Char) : Option DebugType :=
  (st.sinkTags.find? fun p => p.1 == name).map (·.2)

/-- `stab_find_tagged_type`: prefers a tag the sink already knows; else
reuses a matching undefined-tag entry (upgrading an unknown kind), and
otherwise allocates a new entry whose `slot` is NULL and whose cached
`type` is an indirect type pointing at that slot. -/
def stab_find_tagged_type (st : State) (name : List Char) (kind : TagKind) :
    State × DebugType :=
  match debug_find_tagged_type st name with
  | some d => (st, d)
  | none =>
    match st.tagList.find? (fun i => (st.tagArena.getD i default).name == name) with
    | some i =>
      let t := st.tagArena.getD i default
      let t' := if t.kind = .illegal then { t with kind := kind } else t
      ({ st with tagArena := st.tagArena.set i t' }, t'.typ)
    | none =>
      let idx := st.tagArena.length
      let typ := DebugType.indirect (.tagSlot idx) (some name)
      ({ st with
          tagArena := st.tagArena ++ [⟨name, kind, none, typ⟩]
          tagList := idx :: st.tagList }, typ)

/-! ### Sink type accessors (modelled from the spec) -/

/-- The type kinds the decoder compares against (`DEBUG_KIND_VOID` in the
method-descriptor varargs test, `DEBUG_KIND_METHOD` in the stub test);
every other kind is collapsed into `otherK`. -/
inductive DebugKind
  | voidK
  | methodK
  | otherK
deriving DecidableEq, Repr

/-- Modelled from the spec: `debug_get_type_kind` (debug.c) reports a
type's kind, reading through in-place indirections; the fuel bounds
indirection chains (never exhausted on the inputs of this development). -/
def debug_get_type_kind (st : State) : Nat → DebugType → DebugKind
  | 0, _ => .otherK
  | fuel + 1, t =>
    match t with
    | .voidT => .voidK
    | .methodT _ _ _ _ => .methodK
    | .indirect a n =>
      match resolveIndirect st (.indirect a n) with
      | some t' => debug_get_type_kind st fuel t'
      | none => .otherK
    | .namedT _ t' => debug_get_type_kind st fuel t'
    | .taggedT _ t' => debug_get_type_kind st fuel t'
    | _ => .otherK

/-- Modelled from the spec: `debug_get_return_type` (debug.c) of a method
or function type, through indirections. -/
def debug_get_return_type (st : State) : Nat → DebugType → Option DebugType
  | 0, _ => none
  | fuel + 1, t =>
    match t with
    | .methodT ret _ _ _ => some ret
    | .functionT ret => some ret
    | .indirect a n =>
      match resolveIndirect st (.indirect a n) with
      | some t' => debug_get_return_type st fuel t'
      | none => none
    | .namedT _ t' => debug_get_return_type st fuel t'
    | .taggedT _ t' => debug_get_return_type st fuel t'
    | _ => none

/-- Modelled from the spec: `debug_get_parameter_types` (debug.c) of a
method type; NULL (here `none`) for a stub whose argument list was never
supplied. -/
def debug_get_parameter_types (st : State) : Nat → DebugType → Option (List DebugType)
  | 0, _ => none
  | fuel + 1, t =>
    match t with
    | .methodT _ _ args _ => args
    | .indirect a n =>
      match resolveIndirect st (.indirect a n) with
      | some t' => debug_get_parameter_types st fuel t'
      | none => none
    | .namedT _ t' => debug_get_parameter_types st fuel t'
    | .taggedT _ t' => debug_get_parameter_types st fuel t'
    | _ => none

/-! ### The type-expression parser (`parse_stab_type`) -/

/-- Outcome of a parsing function: a value, the C NULL/false failure, or a
marker that the input walked into a source path outside the scope of this
development (no theorem below depends on such a path). -/
inductive PResult (α : Type)
  | ok (a : α)
  | err
  | outOfScope (tag : String)

/-- Result of `parse_stab_type`. -/
abbrev TypeResult := PResult DebugType

/-- C `atoi`: optional whitespace and sign, decimal digits, zero when no
digit is present (overflow left unbounded; the decoder only applies it to
small attribute sizes). -/
def atoiC (cs : List Char) : Int :=
  let afterWS := cs.dropWhile isSpaceC
  let (neg, ds) :=
    match afterWS with
    | '-' :: r => (true, r)
    | '+' :: r => (false, r)
    | r => (false, r)
  let (acc, _, _) := accumDigits 10 ds 0 false
  if neg then -(acc : Int) else (acc : Int)

/-- The type-attribute loop of `parse_stab_type` (`@s<bits>;` explicit
size, `@S;` string flag, member types breaking out, unknown attributes
ignored, a missing terminating semicolon a bad stab). -/
def parseAttrs (fuel : Nat) (st : State) (cs : List Char) (orig : List Char)
    (size : Option Nat) (stringp : Bool) :
    State × Option (Option Nat × Bool × List Char) :=
  match fuel with
  | 0 => (st, none)
  | fuel + 1 =>
    if peek cs = '@' then
      let p := cs.tail
      if isDigitC (peek p) ∨ peek p = '(' ∨ peek p = '-' then
        (st, some (size, stringp, cs))
      else
        match p.findIdx? (· = ';') with
        | none => (emit st (.badStab orig), none)
        | some i =>
          let rest := p.drop (i + 1)
          if peek p = 's' then
            let sz := (atoiC p.tail).tdiv 8
            let size' := if sz ≤ 0 then none else some sz.toNat
            parseAttrs fuel st rest orig size' stringp
          else if peek p = 'S' then parseAttrs fuel st rest orig size true
          else if peek p = '\x00' then (emit st (.badStab orig), none)
          else parseAttrs fuel st rest orig size stringp
    else (st, some (size, stringp, cs))

/-- The nested-template scan of the cross-reference case: starting at `<`,
track angle-bracket nesting and report the position of the first `:` at
nesting level zero (`none` when the string ends first, which the caller
turns into a bad stab). -/
def crossRefScan : List Char → Int → Nat → Option Nat
  | [], _, _ => none
  | c :: rest, nest, i =>
    if c = '<' then crossRefScan rest (nest + 1) (i + 1)
    else if c = '>' then crossRefScan rest (nest - 1) (i + 1)
    else if c = ':' ∧ nest = 0 then some i
    else crossRefScan rest nest (i + 1)

/-- Common tail of `parse_stab_type`: a NULL result propagates; a defined
type number is recorded (failure to record is failure of the parse); an
explicit attribute size is forwarded to the sink. -/
def finishType (st : State) (tn : Int × Int) (size : Option Nat)
    (r : TypeResult) (cs : List Char) (slotOut : Option (Nat × Nat)) :
    State × TypeResult × List Char × Option (Nat × Nat) :=
  match r with
  | .ok dt =>
    let step :=
      if tn.1 ≠ -1 then
        match stab_record_type st tn dt with
        | (st1, false) => (st1, false)
        | (st1, true) => (st1, true)
      else (st, true)
    match step with
    | (st1, false) => (st1, .err, cs, slotOut)
    | (st1, true) =>
      match size with
      | some s => (emit st1 (.recordTypeSize dt s), .ok dt, cs, slotOut)
      | none => (st1, .ok dt, cs, slotOut)
  | other => (st, other, cs, slotOut)

/-- Map a sub-parse through a unary sink constructor (`debug_make_pointer_type`
and relatives); the sink returns NULL on a NULL operand (modelled from the
spec), so failure propagates. -/
def mapSub (tn : Int × Int) (size : Option Nat)
    (slotOut : Option (Nat × Nat))
    (sub : State × TypeResult × List Char × Option (Nat × Nat))
    (f : DebugType → DebugType) :
    State × TypeResult × List Char × Option (Nat × Nat) :=
  match sub with
  | (st1, .ok dt, cs1, _) => finishType st1 tn size (.ok (f dt)) cs1 slotOut
  | (st1, .err, cs1, _) => (st1, .err, cs1, slotOut)
  | (st1, .outOfScope t, cs1, _) => (st1, .outOfScope t, cs1, slotOut)

mutual

/-- `parse_stab_type`: clears the self-crossref flag, reads an optional
type number, returns an existing or forward-referenced type when no `=`
follows, otherwise records the definition slot (when the caller asked for
it and the number is non-negative), processes type attributes, and
dispatches on the descriptor character.  `fuel` bounds the recursion the C
performs on the raw cursor; every concrete run below stays far below it. -/
def parse_stab_type (fuel : Nat) (st : State) (type_name : Option (List Char))
    (cs : List Char) (wantSlot : Bool) :
    State × TypeResult × List Char × Option (Nat × Nat) :=
  match fuel with
  | 0 => (st, .outOfScope "fuel", cs, none)
  | fuel + 1 =>
    if cs.isEmpty then (st, .err, cs, none)
    else
      let orig := cs
      let st := { st with self_crossref := false }
      if ¬ (isDigitC (peek cs) ∨ peek cs = '(' ∨ peek cs = '-') then
        parseDescr fuel st type_name cs (-1, -1) none false orig none
      else
        match parse_stab_type_number st cs with
        | (st1, none) => (st1, .err, cs, none)
        | (st1, some (tn, cs1)) =>
          if peek cs1 ≠ '=' then
            match stab_find_type st1 tn with
            | (st2, none) => (st2, .err, cs1, none)
            | (st2, some d) => (st2, .ok d, cs1, none)
          else
            let (st2, slotOut) :=
              if wantSlot ∧ 0 ≤ tn.1 ∧ 0 ≤ tn.2 then stab_find_slot st1 tn
              else (st1, none)
            match parseAttrs fuel st2 cs1.tail orig none false with
            | (st3, none) => (st3, .err, cs1.tail, slotOut)
            | (st3, some (size, stringp, cs2)) =>
              parseDescr fuel st3 type_name cs2 tn size stringp orig slotOut

/-- Descriptor dispatch of `parse_stab_type` (the big `switch`), followed
by the common tail that records defined type numbers and explicit sizes.
Descriptors `b`, `R`, `e`, `s`, `u` and `a` delegate to sub-parsers
outside the scope of this development. -/
def parseDescr (fuel : Nat) (st : State) (type_name : Option (List Char))
    (cs : List Char) (tn : Int × Int) (size : Option Nat) (stringp : Bool)
    (orig : List Char) (slotOut : Option (Nat × Nat)) :
    State × TypeResult × List Char × Option (Nat × Nat) :=
  match fuel with
  | 0 => (st, .outOfScope "fuel", cs, slotOut)
  | fuel + 1 =>
    let d := peek cs
    let cs' := cs.tail
    if d = 'x' then
      let kind? : Option TagKind :=
        if peek cs' = 's' then some .structK
        else if peek cs' = 'u' then some .unionK
        else if peek cs' = 'e' then some .enumK
        else if peek cs' = '\x00' then none
        else some .structK
      match kind? with
      | none => (emit st (.badStab orig), .err, cs', slotOut)
      | some kind =>
        let st := if peek cs' = 's' ∨ peek cs' = 'u' ∨ peek cs' = 'e' then st
          else emit st (.warnStab "unrecognized cross reference type")
        let rest := cs'.tail
        match rest.findIdx? (· = ':') with
        | none => (emit st (.badStab orig), .err, rest, slotOut)
        | some p0 =>
          let q1? := rest.findIdx? (· = '<')
          let p? : Option Nat :=
            match q1? with
            | some q1 =>
              if q1 < p0 ∧ rest.getD (p0 + 1) '\x00' = ':' then
                crossRefScan (rest.drop q1) 0 q1
              else some p0
            | none => some p0
          match p? with
          | none => (emit st (.badStab orig), .err, rest, slotOut)
          | some p =>
            let name := rest.take p
            let selfRef := type_name = some name
            let st := if selfRef then { st with self_crossref := true } else st
            let (st1, dtype) := stab_find_tagged_type st name kind
            finishType st1 tn size (.ok dtype) (rest.drop (p + 1)) slotOut
    else if isDigitC d ∨ d = '(' ∨ d = '-' then
      match parse_stab_type_number st cs with
      | (st1, none) => (st1, .err, cs, slotOut)
      | (st1, some (xtn, csA)) =>
        if tn = xtn then finishType st1 tn size (.ok .voidT) csA slotOut
        else
          match parse_stab_type fuel st1 none cs false with
          | (st2, .ok dt, csB, _) =>
            if tn.1 ≠ -1 then
              match stab_record_type st2 tn dt with
              | (st3, false) => (st3, .err, csB, slotOut)
              | (st3, true) => finishType st3 tn size (.ok dt) csB slotOut
            else finishType st2 tn size (.ok dt) csB slotOut
          | (st2, .err, csB, _) => (st2, .err, csB, slotOut)
          | (st2, .outOfScope t, csB, _) => (st2, .outOfScope t, csB, slotOut)
    else if d = '*' then
      mapSub tn size slotOut (parse_stab_type fuel st none cs' false) .pointer
    else if d = '&' then
      mapSub tn size slotOut (parse_stab_type fuel st none cs' false) .reference
    else if d = 'f' then
      mapSub tn size slotOut (parse_stab_type fuel st none cs' false) .functionT
    else if d = 'k' then
      mapSub tn size slotOut (parse_stab_type fuel st none cs' false) .constT
    else if d = 'B' then
      mapSub tn size slotOut (parse_stab_type fuel st none cs' false) .volatileT
    else if d = 'S' then
      mapSub tn size slotOut (parse_stab_type fuel st none cs' false)
        (fun t => .setT t stringp)
    else if d = '@' then
      match parse_stab_type fuel st none cs' false with
      | (st1, .ok dom, cs1, _) =>
        if peek cs1 ≠ ',' then (emit st1 (.badStab orig), .err, cs1, slotOut)
        else
          match parse_stab_type fuel st1 none cs1.tail false with
          | (st2, .ok mem, cs2, _) =>
            finishType st2 tn size (.ok (.offsetT dom mem)) cs2 slotOut
          | (st2, .err, cs2, _) => (st2, .err, cs2, slotOut)
          | (st2, .outOfScope t, cs2, _) => (st2, .outOfScope t, cs2, slotOut)
      | (st1, .err, cs1, _) => (st1, .err, cs1, slotOut)
      | (st1, .outOfScope t, cs1, _) => (st1, .outOfScope t, cs1, slotOut)
    else if d = '#' then
      if peek cs' = '#' then
        match parse_stab_type fuel st none cs'.tail false with
        | (st1, .ok ret, cs1, _) =>
          if peek cs1 ≠ ';' then (emit st1 (.badStab orig), .err, cs1, slotOut)
          else
            finishType st1 tn size (.ok (.methodT ret none none false))
              cs1.tail slotOut
        | (st1, .err, cs1, _) => (st1, .err, cs1, slotOut)
        | (st1, .outOfScope t, cs1, _) => (st1, .outOfScope t, cs1, slotOut)
      else
        match parse_stab_type fuel st none cs' false with
        | (st1, .ok dom, cs1, _) =>
          if peek cs1 ≠ ',' then (emit st1 (.badStab orig), .err, cs1, slotOut)
          else
            match parse_stab_type fuel st1 none cs1.tail false with
            | (st2, .ok ret, cs2, _) =>
              match methodArgsLoop fuel st2 cs2 orig [] with
              | (st3, .ok (args, cs3)) =>
                let dropVoid : Bool :=
                  ¬ args.isEmpty &&
                    debug_get_type_kind st3 1000 (args.getLastD .voidT) == .voidK
                let args' := if dropVoid then args.dropLast else args
                let varargs := ! dropVoid
                finishType st3 tn size
                  (.ok (.methodT ret (some dom) (some args') varargs)) cs3 slotOut
              | (st3, .err) => (st3, .err, cs2, slotOut)
              | (st3, .outOfScope t) => (st3, .outOfScope t, cs2, slotOut)
            | (st2, .err, cs2, _) => (st2, .err, cs2, slotOut)
            | (st2, .outOfScope t, cs2, _) => (st2, .outOfScope t, cs2, slotOut)
        | (st1, .err, cs1, _) => (st1, .err, cs1, slotOut)
        | (st1, .outOfScope t, cs1, _) => (st1, .outOfScope t, cs1, slotOut)
    else if d = 'r' then
      match parse_stab_range_type st type_name cs' tn with
      | (st1, none, cs1) => (st1, .err, cs1, slotOut)
      | (st1, some dt, cs1) => finishType st1 tn size (.ok dt) cs1 slotOut
    else if d = 'b' ∨ d = 'R' ∨ d = 'e' ∨ d = 's' ∨ d = 'u' ∨ d = 'a' then
      (st, .outOfScope (String.mk [d]), cs', slotOut)
    else (emit st (.badStab orig), .err, cs', slotOut)

/-- The argument-list loop of the method descriptor: comma-separated types
until a semicolon; any other separator is a bad stab. -/
def methodArgsLoop (fuel : Nat) (st : State) (cs : List Char)
    (orig : List Char) (acc : List DebugType) :
    State × PResult (List DebugType × List Char) :=
  match fuel with
  | 0 => (st, .outOfScope "fuel")
  | fuel + 1 =>
    if peek cs = ';' then (st, .ok (acc, cs.tail))
    else if peek cs ≠ ',' then (emit st (.badStab orig), .err)
    else
      match parse_stab_type fuel st none cs.tail false with
      | (st1, .ok dt, cs1, _) => methodArgsLoop fuel st1 cs1 orig (acc ++ [dt])
      | (st1, .err, _, _) => (st1, .err)
      | (st1, .outOfScope t, _, _) => (st1, .outOfScope t)

end

/-! ### Method parsing (`parse_stab_argtypes`, `parse_stab_members`)

The legacy and V3 demangling engines (`stab_demangle_argtypes` and below,
about 1,700 lines of the source) are abstracted as an explicit oracle
parameter `dm : List Char → Nat → Option (List DebugType × Bool)` mapping
a physical name and remembered-prefix length to the recovered argument
list and varargs flag, `none` modelling a failed demangle.  The claims
settled here are conditional on the demangler's success or failure, not on
its internals, so every theorem either quantifies over `dm` or
instantiates it explicitly. -/

/-- Member visibility (`enum debug_visibility`). -/
inductive Visibility
  | privateV
  | protectedV
  | publicV
deriving DecidableEq, Repr

/-- One method variant as handed to `debug_make_method_variant` or
`debug_make_static_method_variant` (modelled from the spec as a record;
the static form carries no virtual offset or context). -/
structure MethodVariant where
  physname : List Char
  typ : DebugType
  visibility : Visibility
  constp : Bool
  volatilep : Bool
  voffset : Nat
  context : Option DebugType
  staticp : Bool

/-- One named method group (`debug_make_method`). -/
structure DebugMethod where
  name : List Char
  variants : List MethodVariant

/-- `parse_stab_argtypes`: classifies the mangled `argtypes` text
(full-physname constructor, destructor, V3), mangles the physical name
from field name, const/volatile prefix, tag name and argument text for
the legacy forms (rejecting the obsolete `op$` operator-name encoding),
and recovers the argument list through the demangler; an empty argument
text or a destructor yields an empty argument list without demangling. -/
def parse_stab_argtypes (st : State)
    (dm : List Char → Nat → Option (List DebugType × Bool))
    (class_type : DebugType) (fieldname : List Char)
    (tagname : Option (List Char)) (return_type : DebugType)
    (argtypes : List Char) (constp volatilep : Bool) :
    State × Option (DebugType × List Char) :=
  let at0 := argtypes.getD 0 '\x00'
  let at1 := argtypes.getD 1 '\x00'
  let at2 := argtypes.getD 2 '\x00'
  let is_full_physname_constructor :=
    (at0 = '_' ∧ at1 = '_' ∧ (isDigitC at2 ∨ at2 = 'Q' ∨ at2 = 't'))
      ∨ "__ct".data.isPrefixOf argtypes
  let is_constructor :=
    is_full_physname_constructor ∨ (tagname.isSome ∧ some fieldname = tagname)
  let is_destructor :=
    (at0 = '_' ∧ (at1 = '$' ∨ at1 = '.') ∧ at2 = '_')
      ∨ "__dt".data.isPrefixOf argtypes
  let is_v3 := at0 = '_' ∧ at1 = 'Z'
  let build : Option (List Char × Nat) :=
    if ¬ (is_destructor ∨ is_full_physname_constructor ∨ is_v3) then
      let len := (tagname.getD []).length
      let constPre := if constp then "C".data else []
      let volPre := if volatilep then "V".data else []
      let (buf, tagname', len') :=
        if len = 0 then ("__".data ++ constPre ++ volPre, tagname, 0)
        else if (tagname.getD []).contains '<' then
          ("__".data ++ constPre ++ volPre, none, 0)
        else ("__".data ++ constPre ++ volPre ++ (toString len).data, tagname, len)
      if fieldname.getD 0 '\x00' = 'o' ∧ fieldname.getD 1 '\x00' = 'p'
          ∧ (fieldname.getD 2 '\x00' = '$' ∨ fieldname.getD 2 '\x00' = '.') then
        none
      else
        let head := if is_constructor then [] else fieldname
        let physname_len := head.length
        let _ := len'
        some (head ++ buf ++ tagname'.getD [] ++ argtypes, physname_len)
    else some (argtypes, 0)
  match build with
  | none => (st, none)
  | some (physname, physname_len) =>
    if argtypes.isEmpty ∨ is_destructor then
      (st, some (.methodT return_type (some class_type) (some []) false, physname))
    else
      match dm physname physname_len with
      | none => (st, none)
      | some (args, varargs) =>
        (st, some (.methodT return_type (some class_type) (some args) varargs,
          physname))

/-- One pass of the variant do-while loop of `parse_stab_members`,
accumulating variants of the method named `name` until the group's
semicolon.  A failed demangle of a stub's physical name makes the whole
call fail (`goto fail` in the source). -/
def membersVariantLoop (fuel : Nat) (st : State)
    (dm : List Char → Nat → Option (List DebugType × Bool))
    (tagname : Option (List Char)) (typenums : Int × Int) (name : List Char)
    (cs : List Char) (orig : List Char) (lookAhead : Option DebugType)
    (acc : List MethodVariant) :
    State × PResult (List MethodVariant × List Char) :=
  match fuel with
  | 0 => (st, .outOfScope "fuel")
  | fuel + 1 =>
    let head : State × PResult (DebugType × List Char) :=
      match lookAhead with
      | some t => (st, .ok (t, cs))
      | none =>
        match parse_stab_type fuel st none cs false with
        | (st1, .ok t, cs1, _) =>
          if peek cs1 ≠ ':' then (emit st1 (.badStab orig), .err)
          else (st1, .ok (t, cs1))
        | (st1, .err, _, _) => (st1, .err)
        | (st1, .outOfScope t, _, _) => (st1, .outOfScope t)
    match head with
    | (st1, .err) => (st1, .err)
    | (st1, .outOfScope t) => (st1, .outOfScope t)
    | (st1, .ok (ty0, cs1)) =>
      let cs2 := cs1.tail
      match cs2.findIdx? (· = ';') with
      | none => (emit st1 (.badStab orig), .err)
      | some i =>
        let argtypes := cs2.take i
        let cs3 := cs2.drop (i + 1)
        let stub0 : Bool :=
          debug_get_type_kind st1 1000 ty0 == .methodK
            && (debug_get_parameter_types st1 1000 ty0).isNone
        let visC := peek cs3
        if visC = '\x00' then (emit st1 (.badStab orig), .err)
        else
          let visibility :=
            if visC = '0' then Visibility.privateV
            else if visC = '1' then Visibility.protectedV
            else Visibility.publicV
          let cs4 := cs3.tail
          let (st2, constp, volatilep, cs5) :=
            let c := peek cs4
            if c = 'A' then (st1, false, false, cs4.tail)
            else if c = 'B' then (st1, true, false, cs4.tail)
            else if c = 'C' then (st1, false, true, cs4.tail)
            else if c = 'D' then (st1, true, true, cs4.tail)
            else if c = '*' ∨ c = '?' ∨ c = '.' then (st1, false, false, cs4)
            else (emit st1 (.warnStab "const/volatile indicator missing"),
              false, false, cs4)
          let dispatch : State × PResult
              (Bool × Nat × Option DebugType × Option DebugType × Bool × List Char) :=
            let c := peek cs5
            if c = '*' then
              let (st3, vof, _, cs6) := parse_number st2 cs5.tail false
              if peek cs6 ≠ ';' then (emit st3 (.badStab orig), .err)
              else
                let voffset := vof &&& 0x7fffffff
                let cs7 := cs6.tail
                if peek cs7 = ';' ∨ peek cs7 = '\x00' then
                  (st3, .ok (false, voffset, none, none, stub0, cs7))
                else
                  match parse_stab_type fuel st3 none cs7 false with
                  | (st4, .outOfScope t, _, _) => (st4, .outOfScope t)
                  | (st4, r, cs8, _) =>
                    let la : Option DebugType :=
                      match r with
                      | .ok t => some t
                      | _ => none
                    if peek cs8 = ':' then
                      (st4, .ok (false, voffset, none, la, stub0, cs8))
                    else if peek cs8 ≠ ';' then (emit st4 (.badStab orig), .err)
                    else (st4, .ok (false, voffset, la, none, stub0, cs8.tail))
            else if c = '?' then
              let stub' := stub0 || ¬ (name.isPrefixOf argtypes)
              (st2, .ok (true, 0, none, none, stub', cs5.tail))
            else if c = '.' then (st2, .ok (false, 0, none, none, stub0, cs5.tail))
            else
              (emit st2 (.warnStab "member function type missing"),
                .ok (false, 0, none, none, stub0, cs5))
          match dispatch with
          | (st3, .err) => (st3, .err)
          | (st3, .outOfScope t) => (st3, .outOfScope t)
          | (st3, .ok (staticp, voffset, context, lookAhead', stub, cs9)) =>
            let stubbed : State × PResult (DebugType × List Char) :=
              if stub then
                match stab_find_type st3 typenums with
                | (st4, none) => (st4, .err)
                | (st4, some class_type) =>
                  match debug_get_return_type st4 1000 ty0 with
                  | none => (emit st4 (.badStab orig), .err)
                  | some return_type =>
                    match parse_stab_argtypes st4 dm class_type name tagname
                        return_type argtypes constp volatilep with
                    | (st5, none) => (st5, .err)
                    | (st5, some (ty', phys')) => (st5, .ok (ty', phys'))
              else (st3, .ok (ty0, argtypes))
            match stubbed with
            | (st4, .err) => (st4, .err)
            | (st4, .outOfScope t) => (st4, .outOfScope t)
            | (st4, .ok (tyF, physname)) =>
              let variant : MethodVariant :=
                if ¬ staticp then
                  ⟨physname, tyF, visibility, constp, volatilep, voffset,
                    context, false⟩
                else ⟨physname, tyF, visibility, constp, volatilep, 0, none, true⟩
              let acc' := acc ++ [variant]
              if peek cs9 ≠ ';' ∧ peek cs9 ≠ '\x00' then
                membersVariantLoop fuel st4 dm tagname typenums name cs9 orig
                  lookAhead' acc'
              else (st4, .ok (acc', cs9))

/-- The outer method-group loop of `parse_stab_members`: stops at the
terminating semicolon or when the next text is not a `name::` group;
otherwise reads the group name (with the obsolete `op$::NAME.` spelling
for operator names) and collects the group's variants. -/
def membersLoop (fuel : Nat) (st : State)
    (dm : List Char → Nat → Option (List DebugType × Bool))
    (tagname : Option (List Char)) (typenums : Int × Int) (cs : List Char)
    (orig : List Char) (acc : List DebugMethod) :
    State × PResult (List DebugMethod) × List Char :=
  match fuel with
  | 0 => (st, .outOfScope "fuel", cs)
  | fuel + 1 =>
    if peek cs = ';' then (st, .ok acc, cs)
    else
      match cs.findIdx? (· = ':') with
      | none => (st, .ok acc, cs)
      | some p =>
        if cs.getD (p + 1) '\x00' ≠ ':' then (st, .ok acc, cs)
        else
          let nameStep : State × PResult (List Char × List Char) :=
            if ¬ (cs.getD 0 '\x00' = 'o' ∧ cs.getD 1 '\x00' = 'p'
                ∧ cs.getD 2 '\x00' = '$') then
              (st, .ok (cs.take p, cs.drop (p + 2)))
            else
              let afterOp := cs.drop (p + 2)
              match afterOp.findIdx? (· = '.') with
              | none => (emit st (.badStab orig), .err)
              | some j => (st, .ok (afterOp.take j, afterOp.drop (j + 1)))
          match nameStep with
          | (st1, .err) => (st1, .err, cs)
          | (st1, .outOfScope t) => (st1, .outOfScope t, cs)
          | (st1, .ok (name, cs1)) =>
            match membersVariantLoop fuel st1 dm tagname typenums name cs1 orig
                none [] with
            | (st2, .err) => (st2, .err, cs1)
            | (st2, .outOfScope t) => (st2, .outOfScope t, cs1)
            | (st2, .ok (variants, cs2)) =>
              let cs3 := if peek cs2 ≠ '\x00' then cs2.tail else cs2
              membersLoop fuel st2 dm tagname typenums cs3 orig
                (acc ++ [⟨name, variants⟩])

/-- `parse_stab_members`: an exhausted cursor is a failure; otherwise the
method groups are collected until the member list's semicolon.  `.err`
models the C `return false` (which the aggregate parser, the type parser
and the dispatcher all propagate, aborting the record). -/
def parse_stab_members (fuel : Nat) (st : State)
    (dm : List Char → Nat → Option (List DebugType × Bool))
    (tagname : Option (List Char)) (cs : List Char) (typenums : Int × Int) :
    State × PResult (List DebugMethod) × List Char :=
  if cs.isEmpty then (st, .err, cs)
  else membersLoop fuel st dm tagname typenums cs cs []

/-! ### Descriptor strings (`parse_stab_string`) -/

/-- Modelled from the spec: `debug_tag_type` (debug.c) gives a type its
tag name, records it in the sink's tag store, and returns the tagged
handle. -/
def debug_tag_type (st : State) (name : List Char) (t : DebugType) :
    State × DebugType :=
  let tagged := DebugType.taggedT name t
  ({ st with sinkTags := st.sinkTags ++ [(name, tagged)] }, tagged)

/-- Modelled from the spec: `debug_name_type` (debug.c) wraps a type in a
typedef name. -/
def debug_name_type (name : List Char) (t : DebugType) : DebugType :=
  .namedT name t

/-- The cross-reference back-patching loop of the `T` case: the first
undefined-tag entry with this name has its slot redirected to the
definition and is removed from the pending list. -/
def fillTag (st : State) (name : List Char) (d : DebugType) : State :=
  match st.tagList.find? (fun i => (st.tagArena.getD i default).name == name) with
  | some i =>
    { st with
      tagArena := st.tagArena.set i
        { st.tagArena.getD i default with slot := some d }
      tagList := st.tagList.erase i }
  | none => st

/-- The `while (p[1] == ':')` scan of `parse_stab_string`: starting from
the colon at index `i`, skip `::` pairs; `none` models the bad-stab exit
when no further colon exists. -/
def colonAdvance (fuel : Nat) (cs : List Char) (i : Nat) : Option Nat :=
  match fuel with
  | 0 => none
  | fuel + 1 =>
    if cs.getD (i + 1) '\x00' = ':' then
      match (cs.drop (i + 2)).findIdx? (· = ':') with
      | none => none
      | some k => colonAdvance fuel cs (i + 2 + k)
    else some i

/-- `parse_stab_string` (the modelled subset): a string with no colon at
all is silently accepted; `::` pairs are skipped to find the name/type
divider; `$`-encoded C++ names are recognised; a type letter follows (a
digit, `(` or `-` meaning a local variable); the `T` (tag definition)
case is modelled in full, including the self-crossref guard that keeps a
self-referential definition from back-patching its own pending tag entry.
All other type letters that the source handles are out of scope here;
genuinely unknown letters are bad stabs.  The record's value and the
other modelled-out parameters play no role in the covered cases. -/
def parse_stab_string (fuel : Nat) (st : State)
    (dm : List Char → Nat → Option (List DebugType × Bool))
    (cs : List Char) : State × PResult Unit :=
  let _ := dm
  match cs.findIdx? (· = ':') with
  | none => (st, .ok ())
  | some i0 =>
    match colonAdvance fuel cs i0 with
    | none => (emit st (.badStab cs), .err)
    | some p =>
      let (st, nameSpecial) :=
        if cs.getD 0 '\x00' = '$' then
          let c1 := cs.getD 1 '\x00'
          if c1 = 't' then (st, some "this".data)
          else if c1 = 'e' then (st, some "eh_throw".data)
          else if c1 = 'v' ∨ c1 = '_' ∨ c1 = 'X' then (st, none)
          else (emit st (.warnStab "unknown C++ encoded name"), none)
        else (st, none)
      let name : Option (List Char) :=
        match nameSpecial with
        | some n => some n
        | none =>
          if p = 0 ∨ (cs.getD 0 '\x00' = ' ' ∧ p = 1) then none
          else some (cs.take p)
      let csAfter := cs.drop (p + 1)
      let (typeChar, csT) :=
        if isDigitC (peek csAfter) ∨ peek csAfter = '(' ∨ peek csAfter = '-' then
          ('l', csAfter)
        else (peek csAfter, csAfter.tail)
      if peek csAfter = '\x00' then (emit st (.badStab cs), .err)
      else if typeChar = 'T' then
        let (synonym, cs1) := if peek csT = 't' then (true, csT.tail) else (false, csT)
        match parse_stab_type fuel st name cs1 true with
        | (st1, .err, _, _) => (st1, .err)
        | (st1, .outOfScope t, _, _) => (st1, .outOfScope t)
        | (st1, .ok dtype, _, slot) =>
          match name with
          | none => (st1, .ok ())
          | some nm =>
            let self_crossref := st1.self_crossref
            let (st2, dtype2) := debug_tag_type st1 nm dtype
            let st3 :=
              match slot with
              | some (f, t) => writeSlot st2 f t dtype2
              | none => st2
            let st4 := if ¬ self_crossref then fillTag st3 nm dtype2 else st3
            if synonym then
              let dtype3 := debug_name_type nm dtype2
              let st5 :=
                match slot with
                | some (f, t) => writeSlot st4 f t dtype3
                | none => st4
              (st5, .ok ())
            else (st4, .ok ())
      else if typeChar = 'c' ∨ typeChar = 'C' ∨ typeChar = 'f' ∨ typeChar = 'F'
          ∨ typeChar = 'G' ∨ typeChar = 'i' ∨ typeChar = 'l' ∨ typeChar = 'p'
          ∨ typeChar = 'P' ∨ typeChar = 'R' ∨ typeChar = 'r' ∨ typeChar = 'S'
          ∨ typeChar = 's' ∨ typeChar = 't' ∨ typeChar = 'v' ∨ typeChar = 'V'
          ∨ typeChar = 'a' ∨ typeChar = 'X' ∨ typeChar = 'Y' then
        (st, .outOfScope (String.mk [typeChar]))
      else (emit st (.badStab cs), .err)

/-! ### Record dispatch (`parse_stab`), modelled subset -/

/-- Record kinds distinguished by the modelled dispatcher slice. -/
inductive StabKind
  | n_so
  | n_bincl
  | n_eincl
  | n_excl
  | other
deriving DecidableEq, Repr

/-- Modelled from the spec: the sink call `debug_start_source` switches
the current source file and reports success. -/
def debug_start_source (st : State) (name : List Char) : State × Bool :=
  (emit st (.startSource name), true)

/-- `parse_stab` (the modelled subset): the accumulated-N_SO prelude that
closes a pending unit start, then the include-file cases.  N_EINCL
restores the source name returned by `pop_bincl`; N_BINCL opens a frame;
N_EXCL reattaches a duplicate include's table.  Every other record kind is
outside the modelled slice. -/
def parse_stab (st : State) (kind : StabKind) (value : Nat)
    (string : List Char) : State × PResult Unit :=
  let st0 :=
    if st.so_string.isSome ∧ (kind ≠ .n_so ∨ string.isEmpty ∨ value ≠ st.so_value) then
      let nm := st.so_string.getD []
      { emit st (.setFilename nm) with
        main_filename := nm
        so_string := none
        gcc_compiled := 0
        n_opt_found := false
        file_start_offset :=
          if ¬ st.sections then st.so_value else st.file_start_offset
        files := 1
        file_types := [[]] }
    else st
  match kind with
  | .n_eincl =>
    let (st1, nm) := pop_bincl st0
    ((debug_start_source st1 nm).1, .ok ())
  | .n_bincl =>
    let st1 := push_bincl st0 string value
    ((debug_start_source st1 string).1, .ok ())
  | .n_excl =>
    match find_excl st0 string value with
    | (st1, true) => (st1, .ok ())
    | (st1, false) => (st1, .err)
  | _ => (st0, .outOfScope "record-kind")

/-- The state `start_stab` creates: one file whose type table is empty,
everything else zeroed. -/
def initState : State where
  files := 1
  file_types := [[]]
  tagArena := []
  tagList := []
  pending := []
  binclArena := []
  bincl_list := []
  bincl_stack := []
  within_function := false
  gcc_compiled := 0
  n_opt_found := false
  self_crossref := false
  sections := false
  file_start_offset := 0
  function_start_offset := 0
  main_filename := "main.c".data
  so_string := none
  so_value := 0
  sinkTags := []
  events := []

/-- Well-formedness of the chunk store: every chunk's slot array has the
allocated STAB_TYPES_SLOTS = 16 entries.  Every state the decoder builds
satisfies this because chunks are only ever created by `ensureChunk`. -/
def WFChunks (st : State) : Prop :=
  ∀ g : Nat, ∀ c ∈ st.file_types.getD g [], c.types.length = 16

/-- Iterated `stab_record_variable` (used to phrase the pending-variable
flush-order theorems over an arbitrary queueing sequence). -/
def queueVars (st : State) (vs : List PendingVar) : State :=
  vs.foldl (fun s v => (stab_record_variable s v.name v.typ v.kind v.val).1) st

/-- The family of self-referential tag-definition records: a `T`
descriptor whose body is a cross-reference of kind `k` naming the very
tag being defined, e.g. `fleep:T20=xsfleep:` (used to phrase the
self-crossref theorem over every tag name, type number and kind). -/
def selfCrossrefRecord (nm num : List Char) (k : Char) : List Char :=
  nm ++ ':' :: 'T' :: num ++ '=' :: 'x' :: k :: nm ++ [':']

/-! ## Theorems -/

theorem getD_set_self {α : Type} (l : List α) (i : Nat) (x d : α)
    (h : i < l.length) : (l.set i x).getD i d = x := by
  induction l generalizing i with
  | nil => simp at h
  | cons a t ih =>
    cases i with
    | zero => simp [List.set, List.getD]
    | succ n =>
      simp only [List.set, List.getD_cons_succ]
      exact ih n (by simpa using h)

theorem getD_replicate_none (n i : Nat) :
    (List.replicate n (none : Option DebugType)).getD i none = none := by
  induction n generalizing i with
  | zero => cases i <;> rfl
  | succ m ih =>
    cases i with
    | zero => rfl
    | succ k => exact ih k

theorem chunkRead_new_chunk (L : List StabTypesChunk) (t : Nat) :
    chunkRead (⟨chunkBase t, List.replicate 16 none⟩ :: L) t = none := by
  have hlt : ¬ chunkBase t < chunkBase t := lt_irrefl _
  simp only [chunkRead, if_neg hlt, if_pos rfl]
  exact getD_replicate_none _ _

theorem chunkRead_ensureChunk (L : List StabTypesChunk) (t : Nat) :
    chunkRead (ensureChunk L (chunkBase t)) t = chunkRead L t := by
  induction L with
  | nil => exact chunkRead_new_chunk [] t
  | cons c rest ih =>
    by_cases h1 : c.base_index < chunkBase t
    · simp only [ensureChunk, chunkRead, if_pos h1]
      exact ih
    · by_cases h2 : c.base_index = chunkBase t
      · simp only [ensureChunk, if_neg h1, if_pos h2]
      · simp only [ensureChunk, if_neg h1, if_neg h2]
        rw [show chunkRead (c :: rest) t = none from by
          simp only [chunkRead, if_neg h1, if_neg h2]]
        exact chunkRead_new_chunk (c :: rest) t

theorem sub_chunkBase_lt (t : Nat) : t - chunkBase t < 16 := by
  simp only [chunkBase]
  omega

theorem chunkRead_set_self (base : Nat) (types : List (Option DebugType))
    (rest : List StabTypesChunk) (t : Nat) (ty : DebugType)
    (hb : base = chunkBase t) (hlen : types.length = 16) :
    chunkRead (⟨base, types.set (t - base) (some ty)⟩ :: rest) t = some ty := by
  subst hb
  have hlt : ¬ chunkBase t < chunkBase t := lt_irrefl _
  simp only [chunkRead, if_neg hlt, if_pos rfl]
  exact getD_set_self _ _ _ _ (by rw [hlen]; exact sub_chunkBase_lt t)

theorem chunkWrite_read_self (L : List StabTypesChunk) (t : Nat) (ty : DebugType)
    (hwf : ∀ c ∈ L, c.types.length = 16) :
    chunkRead (chunkWrite (ensureChunk L (chunkBase t)) t ty) t = some ty := by
  induction L with
  | nil =>
    have hlt : ¬ chunkBase t < chunkBase t := lt_irrefl _
    show chunkRead (chunkWrite [⟨chunkBase t, List.replicate 16 none⟩] t ty) t = some ty
    simp only [chunkWrite, if_neg hlt, if_pos rfl]
    exact chunkRead_set_self _ _ _ _ _ rfl (by simp)
  | cons c rest ih =>
    by_cases h1 : c.base_index < chunkBase t
    · have hwf' : ∀ x ∈ rest, x.types.length = 16 := fun x hx => hwf x (by simp [hx])
      simp only [ensureChunk, chunkWrite, chunkRead, if_pos h1]
      exact ih hwf'
    · by_cases h2 : c.base_index = chunkBase t
      · simp only [ensureChunk, if_neg h1, if_pos h2]
        simp only [chunkWrite, if_neg h1, if_pos h2]
        exact chunkRead_set_self _ _ _ _ _ h2 (hwf c (by simp))
      · have hlt : ¬ chunkBase t < chunkBase t := lt_irrefl _
        simp only [ensureChunk, if_neg h1, if_neg h2]
        simp only [chunkWrite, if_neg hlt, if_pos rfl]
        exact chunkRead_set_self _ _ _ _ _ rfl (by simp)

theorem ensureChunk_wf (L : List StabTypesChunk) (tb : Nat)
    (hwf : ∀ c ∈ L, c.types.length = 16) :
    ∀ c ∈ ensureChunk L tb, c.types.length = 16 := by
  induction L with
  | nil => intro c hc; simp [ensureChunk] at hc; simp [hc]
  | cons a rest ih =>
    intro c hc
    by_cases h1 : a.base_index < tb
    · simp only [ensureChunk, if_pos h1, List.mem_cons] at hc
      rcases hc with rfl | hc
      · exact hwf c (by simp)
      · exact ih (fun x hx => hwf x (by simp [hx])) c hc
    · by_cases h2 : a.base_index = tb
      · simp only [ensureChunk, if_neg h1, if_pos h2] at hc
        exact hwf c hc
      · simp only [ensureChunk, if_neg h1, if_neg h2, List.mem_cons] at hc
        rcases hc with rfl | hc
        · simp
        · exact hwf c (by simp [hc])

theorem chunkWrite_wf (L : List StabTypesChunk) (t : Nat) (ty : DebugType)
    (hwf : ∀ c ∈ L, c.types.length = 16) :
    ∀ c ∈ chunkWrite L t ty, c.types.length = 16 := by
  induction L with
  | nil => intro c hc; simp [chunkWrite] at hc
  | cons a rest ih =>
    intro c hc
    by_cases h1 : a.base_index < chunkBase t
    · simp only [chunkWrite, if_pos h1, List.mem_cons] at hc
      rcases hc with rfl | hc
      · exact hwf c (by simp)
      · exact ih (fun x hx => hwf x (by simp [hx])) c hc
    · by_cases h2 : a.base_index = chunkBase t
      · simp only [chunkWrite, if_neg h1, if_pos h2, List.mem_cons] at hc
        rcases hc with rfl | hc
        · simpa using hwf a (by simp)
        · exact hwf c (by simp [hc])
      · simp only [chunkWrite, if_neg h1, if_neg h2, List.mem_cons] at hc
        rcases hc with rfl | hc
        · exact hwf c (by simp)
        · exact hwf c (by simp [hc])

theorem getD_set_ne {α : Type} (l : List α) (i j : Nat) (x : α) (d : α)
    (h : i ≠ j) : (l.set i x).getD j d = l.getD j d := by
  induction l generalizing i j with
  | nil => simp [List.set]
  | cons a t ih =>
    cases i with
    | zero =>
      cases j with
      | zero => exact absurd rfl h
      | succ m => simp [List.set, List.getD_cons_succ]
    | succ n =>
      cases j with
      | zero => simp [List.set]
      | succ m =>
        simp only [List.set, List.getD_cons_succ]
        exact ih n m (fun he => h (by rw [he]))

theorem find_slot_ok (st : State) (tn : Int × Int)
    (hf : toUInt32Nat tn.1 < st.files) :
    stab_find_slot st tn
      = ({ st with
            file_types := st.file_types.set (toUInt32Nat tn.1)
              (ensureChunk (st.file_types.getD (toUInt32Nat tn.1) [])
                (chunkBase (toUInt32Nat tn.2))) },
          some (toUInt32Nat tn.1, toUInt32Nat tn.2)) := by
  simp only [stab_find_slot]
  rw [if_neg (not_le.mpr hf)]

theorem readSlot_find_slot (st : State) (tn : Int × Int)
    (hf : toUInt32Nat tn.1 < st.files)
    (hlen : st.file_types.length = st.files) :
    readSlot (stab_find_slot st tn).1 (toUInt32Nat tn.1) (toUInt32Nat tn.2)
      = readSlot st (toUInt32Nat tn.1) (toUInt32Nat tn.2) := by
  rw [find_slot_ok st tn hf]
  simp only [readSlot]
  rw [getD_set_self _ _ _ _ (by rw [hlen]; exact hf)]
  exact chunkRead_ensureChunk _ _

theorem find_slot_files (st : State) (tn : Int × Int)
    (hf : toUInt32Nat tn.1 < st.files) :
    (stab_find_slot st tn).1.files = st.files := by
  rw [find_slot_ok st tn hf]

theorem find_slot_len (st : State) (tn : Int × Int)
    (hf : toUInt32Nat tn.1 < st.files) :
    (stab_find_slot st tn).1.file_types.length = st.file_types.length := by
  rw [find_slot_ok st tn hf]
  simp

theorem find_slot_events (st : State) (tn : Int × Int)
    (hf : toUInt32Nat tn.1 < st.files) :
    (stab_find_slot st tn).1.events = st.events := by
  rw [find_slot_ok st tn hf]

theorem find_slot_wf (st : State) (tn : Int × Int)
    (hf : toUInt32Nat tn.1 < st.files) (hwf : WFChunks st) :
    WFChunks (stab_find_slot st tn).1 := by
  rw [find_slot_ok st tn hf]
  intro g c hc
  by_cases hg : toUInt32Nat tn.1 = g
  · subst hg
    by_cases hlt : toUInt32Nat tn.1 < st.file_types.length
    · rw [getD_set_self _ _ _ _ hlt] at hc
      exact ensureChunk_wf _ _ (hwf _) c hc
    · rw [List.getD_eq_default] at hc
      · simp at hc
      · simpa using hlt
  · rw [getD_set_ne _ _ _ _ _ hg] at hc
    exact hwf g c hc

theorem record_type_ok (st : State) (tn : Int × Int) (h : DebugType)
    (hf : toUInt32Nat tn.1 < st.files) :
    stab_record_type st tn h
      = (writeSlot (stab_find_slot st tn).1 (toUInt32Nat tn.1)
          (toUInt32Nat tn.2) h, true) := by
  simp only [stab_record_type]
  rw [find_slot_ok st tn hf]

theorem readSlot_writeSlot_after_find (st : State) (tn : Int × Int) (h : DebugType)
    (hf : toUInt32Nat tn.1 < st.files)
    (hlen : st.file_types.length = st.files)
    (hwf : WFChunks st) :
    readSlot (writeSlot (stab_find_slot st tn).1 (toUInt32Nat tn.1)
        (toUInt32Nat tn.2) h) (toUInt32Nat tn.1) (toUInt32Nat tn.2) = some h := by
  rw [find_slot_ok st tn hf]
  simp only [writeSlot, readSlot]
  have hflen : toUInt32Nat tn.1 < st.file_types.length := by rw [hlen]; exact hf
  rw [getD_set_self _ _ _ _ hflen]
  rw [getD_set_self _ _ _ _ (by simpa using hflen)]
  exact chunkWrite_read_self _ _ _ (hwf _)

theorem find_type_eq_of_none (st : State) (tn : Int × Int)
    (hx : ¬ (tn.1 = 0 ∧ tn.2 < 0))
    (hf : toUInt32Nat tn.1 < st.files)
    (hlen : st.file_types.length = st.files)
    (hempty : readSlot st (toUInt32Nat tn.1) (toUInt32Nat tn.2) = none) :
    stab_find_type st tn
      = ((stab_find_slot st tn).1,
          some (.indirect (.typeSlot (toUInt32Nat tn.1) (toUInt32Nat tn.2)) none)) := by
  have hr : readSlot (stab_find_slot st tn).1 (toUInt32Nat tn.1) (toUInt32Nat tn.2)
      = none := by rw [readSlot_find_slot st tn hf hlen]; exact hempty
  have hk := find_slot_ok st tn hf
  simp only [hk] at hr
  simp only [stab_find_type, if_neg hx, hk, hr]

theorem find_type_eq_of_some (st : State) (tn : Int × Int) (d : DebugType)
    (hx : ¬ (tn.1 = 0 ∧ tn.2 < 0))
    (hf : toUInt32Nat tn.1 < st.files)
    (hlen : st.file_types.length = st.files)
    (hsome : readSlot st (toUInt32Nat tn.1) (toUInt32Nat tn.2) = some d) :
    stab_find_type st tn = ((stab_find_slot st tn).1, some d) := by
  have hr : readSlot (stab_find_slot st tn).1 (toUInt32Nat tn.1) (toUInt32Nat tn.2)
      = some d := by rw [readSlot_find_slot st tn hf hlen]; exact hsome
  have hk := find_slot_ok st tn hf
  simp only [hk] at hr
  simp only [stab_find_type, if_neg hx, hk, hr]

theorem record_type_files (st : State) (tn : Int × Int) (h : DebugType)
    (hf : toUInt32Nat tn.1 < st.files) :
    (stab_record_type st tn h).1.files = st.files := by
  rw [record_type_ok st tn h hf]
  simp only [writeSlot]
  exact find_slot_files st tn hf

theorem record_type_len (st : State) (tn : Int × Int) (h : DebugType)
    (hf : toUInt32Nat tn.1 < st.files) :
    (stab_record_type st tn h).1.file_types.length = st.file_types.length := by
  rw [record_type_ok st tn h hf]
  simp only [writeSlot, List.length_set]
  exact find_slot_len st tn hf

theorem record_type_events (st : State) (tn : Int × Int) (h : DebugType)
    (hf : toUInt32Nat tn.1 < st.files) :
    (stab_record_type st tn h).1.events = st.events := by
  rw [record_type_ok st tn h hf]
  simp only [writeSlot]
  exact find_slot_events st tn hf

theorem writeSlot_wf (st : State) (f t : Nat) (ty : DebugType)
    (hfl : f < st.file_types.length) (hwf : WFChunks st) :
    WFChunks (writeSlot st f t ty) := by
  intro g c hc
  simp only [writeSlot] at hc
  by_cases hg : f = g
  · subst hg
    rw [getD_set_self _ _ _ _ hfl] at hc
    exact chunkWrite_wf _ _ _ (hwf _) c hc
  · rw [getD_set_ne _ _ _ _ _ hg] at hc
    exact hwf g c hc

theorem record_type_wf (st : State) (tn : Int × Int) (h : DebugType)
    (hf : toUInt32Nat tn.1 < st.files)
    (hlen : st.file_types.length = st.files)
    (hwf : WFChunks st) :
    WFChunks (stab_record_type st tn h).1 := by
  rw [record_type_ok st tn h hf]
  refine writeSlot_wf _ _ _ _ ?_ (find_slot_wf st tn hf hwf)
  rw [find_slot_len st tn hf, hlen]
  exact hf

theorem record_then_read (st : State) (tn : Int × Int) (h : DebugType)
    (hf : toUInt32Nat tn.1 < st.files)
    (hlen : st.file_types.length = st.files)
    (hwf : WFChunks st) :
    readSlot (stab_record_type st tn h).1 (toUInt32Nat tn.1) (toUInt32Nat tn.2)
      = some h := by
  rw [record_type_ok st tn h hf]
  exact readSlot_writeSlot_after_find st tn h hf hlen hwf

/-- C1: a lookup of an undefined type number returns an indirect handle
addressing that number's slot; `stab_record_type` then succeeds and
overwrites exactly that slot, so resolving the earlier handle observes the
recorded type, and a fresh lookup after the definition returns the
recorded type itself.  (The XCOFF builtin range and out-of-range file
indices are excluded, and the state is well-formed as every decoder
state is.) -/
theorem registry_indirection_transparency
    (st : State) (tn : Int × Int) (h : DebugType)
    (hx : ¬ (tn.1 = 0 ∧ tn.2 < 0))
    (hf : toUInt32Nat tn.1 < st.files)
    (hlen : st.file_types.length = st.files)
    (hwf : WFChunks st)
    (hempty : readSlot st (toUInt32Nat tn.1) (toUInt32Nat tn.2) = none) :
    (stab_find_type st tn).2
        = some (.indirect (.typeSlot (toUInt32Nat tn.1) (toUInt32Nat tn.2)) none)
      ∧ (stab_record_type (stab_find_type st tn).1 tn h).2 = true
      ∧ resolveIndirect (stab_record_type (stab_find_type st tn).1 tn h).1
          (.indirect (.typeSlot (toUInt32Nat tn.1) (toUInt32Nat tn.2)) none)
          = some h
      ∧ (stab_find_type (stab_record_type (stab_find_type st tn).1 tn h).1 tn).2
          = some h := by
  have hft := find_type_eq_of_none st tn hx hf hlen hempty
  have hst1 : (stab_find_type st tn).1 = (stab_find_slot st tn).1 := by rw [hft]
  have hf1 : toUInt32Nat tn.1 < (stab_find_type st tn).1.files := by
    rw [hst1, find_slot_files st tn hf]; exact hf
  have hlen1 : (stab_find_type st tn).1.file_types.length
      = (stab_find_type st tn).1.files := by
    rw [hst1, find_slot_files st tn hf, find_slot_len st tn hf]; exact hlen
  have hwf1 : WFChunks (stab_find_type st tn).1 := by
    rw [hst1]; exact find_slot_wf st tn hf hwf
  refine ⟨by rw [hft], ?_, ?_, ?_⟩
  · rw [record_type_ok _ tn h hf1]
  · simp only [resolveIndirect]
    exact record_then_read _ tn h hf1 hlen1 hwf1
  · have hf2 : toUInt32Nat tn.1
        < (stab_record_type (stab_find_type st tn).1 tn h).1.files := by
      rw [record_type_files _ tn h hf1]; exact hf1
    have hlen2 : (stab_record_type (stab_find_type st tn).1 tn h).1.file_types.length
        = (stab_record_type (stab_find_type st tn).1 tn h).1.files := by
      rw [record_type_files _ tn h hf1, record_type_len _ tn h hf1]; exact hlen1
    have hread2 := record_then_read _ tn h hf1 hlen1 hwf1
    rw [find_type_eq_of_some _ tn h hx hf2 hlen2 hread2]

/-- C5: recording a type number twice succeeds both times with no
diagnostic output, and a lookup after the second definition observes the
second handle (silent last-write-wins redefinition). -/
theorem registry_redefinition_overwrites
    (st : State) (tn : Int × Int) (h1 h2 : DebugType)
    (hx : ¬ (tn.1 = 0 ∧ tn.2 < 0))
    (hf : toUInt32Nat tn.1 < st.files)
    (hlen : st.file_types.length = st.files)
    (hwf : WFChunks st) :
    (stab_record_type st tn h1).2 = true
      ∧ (stab_record_type (stab_record_type st tn h1).1 tn h2).2 = true
      ∧ (stab_find_type
          (stab_record_type (stab_record_type st tn h1).1 tn h2).1 tn).2 = some h2
      ∧ (stab_record_type (stab_record_type st tn h1).1 tn h2).1.events
          = st.events := by
  have hf1 : toUInt32Nat tn.1 < (stab_record_type st tn h1).1.files := by
    rw [record_type_files st tn h1 hf]; exact hf
  have hlen1 : (stab_record_type st tn h1).1.file_types.length
      = (stab_record_type st tn h1).1.files := by
    rw [record_type_files st tn h1 hf, record_type_len st tn h1 hf]; exact hlen
  have hwf1 : WFChunks (stab_record_type st tn h1).1 :=
    record_type_wf st tn h1 hf hlen hwf
  have hf2 : toUInt32Nat tn.1
      < (stab_record_type (stab_record_type st tn h1).1 tn h2).1.files := by
    rw [record_type_files _ tn h2 hf1]; exact hf1
  have hlen2 : (stab_record_type (stab_record_type st tn h1).1 tn h2).1.file_types.length
      = (stab_record_type (stab_record_type st tn h1).1 tn h2).1.files := by
    rw [record_type_files _ tn h2 hf1, record_type_len _ tn h2 hf1]; exact hlen1
  have hread2 := record_then_read _ tn h2 hf1 hlen1 hwf1
  refine ⟨by rw [record_type_ok st tn h1 hf], by rw [record_type_ok _ tn h2 hf1], ?_, ?_⟩
  · rw [find_type_eq_of_some _ tn h2 hx hf2 hlen2 hread2]
  · rw [record_type_events _ tn h2 hf1, record_type_events st tn h1 hf]

/-- The initial state is well-formed. -/
theorem initState_wf : WFChunks initState := by
  intro g c hc
  rcases g with _ | g
  · simp [initState, List.getD] at hc
  · simp [initState, List.getD_cons_succ, List.getD_nil] at hc

/-- C1 witness: the transparency chain at type number (0,3) with a 4-byte
signed int handle, starting from the fresh session state. -/
theorem registry_indirection_transparency_witness :
    (stab_find_type initState (0, 3)).2 = some (.indirect (.typeSlot 0 3) none)
      ∧ (stab_record_type (stab_find_type initState (0, 3)).1 (0, 3)
          (.intT 4 false)).2 = true
      ∧ resolveIndirect (stab_record_type (stab_find_type initState (0, 3)).1 (0, 3)
          (.intT 4 false)).1 (.indirect (.typeSlot 0 3) none) = some (.intT 4 false)
      ∧ (stab_find_type (stab_record_type (stab_find_type initState (0, 3)).1 (0, 3)
          (.intT 4 false)).1 (0, 3)).2 = some (.intT 4 false) :=
  registry_indirection_transparency initState (0, 3) (.intT 4 false)
    (by decide) (by decide) rfl initState_wf rfl

/-- C5 witness: double definition of type number (0,3) with distinct int
handles from the fresh session state. -/
theorem registry_redefinition_overwrites_witness :
    (stab_record_type initState (0, 3) (.intT 4 false)).2 = true
      ∧ (stab_record_type (stab_record_type initState (0, 3) (.intT 4 false)).1
          (0, 3) (.intT 8 true)).2 = true
      ∧ (stab_find_type (stab_record_type
          (stab_record_type initState (0, 3) (.intT 4 false)).1
          (0, 3) (.intT 8 true)).1 (0, 3)).2 = some (.intT 8 true)
      ∧ (stab_record_type (stab_record_type initState (0, 3) (.intT 4 false)).1
          (0, 3) (.intT 8 true)).1.events = initState.events :=
  registry_redefinition_overwrites initState (0, 3) (.intT 4 false) (.intT 8 true)
    (by decide) (by decide) rfl initState_wf

theorem queueVars_state (st : State) (vs : List PendingVar)
    (hin : st.within_function = true)
    (hgcc : ¬ (st.gcc_compiled = 0 ∧ st.n_opt_found = true))
    (hkinds : ∀ v ∈ vs, v.kind ≠ .global ∧ v.kind ≠ .static) :
    (queueVars st vs).pending = vs.reverse ++ st.pending
      ∧ (queueVars st vs).events = st.events := by
  induction vs generalizing st with
  | nil => simp [queueVars]
  | cons v rest ih =>
    have hv := hkinds v (by simp)
    have hcond : ¬ ((v.kind = .global ∨ v.kind = .static)
        ∨ ¬ st.within_function ∨ (st.gcc_compiled = 0 ∧ st.n_opt_found)) := by
      simp only [hin, not_or]
      exact ⟨by simp [hv.1, hv.2], by simp, hgcc⟩
    have hstep : (stab_record_variable st v.name v.typ v.kind v.val).1
        = { st with pending := ⟨v.name, v.typ, v.kind, v.val⟩ :: st.pending } := by
      simp only [stab_record_variable, if_neg hcond]
    have hrec := ih { st with pending := ⟨v.name, v.typ, v.kind, v.val⟩ :: st.pending }
      hin hgcc (fun x hx => hkinds x (by simp [hx]))
    have hunfold : queueVars st (v :: rest)
        = queueVars (stab_record_variable st v.name v.typ v.kind v.val).1 rest := rfl
    refine ⟨?_, ?_⟩
    · rw [hunfold, hstep, hrec.1]
      simp
    · rw [hunfold, hstep, hrec.2]

theorem emit_pending_fold (l : List PendingVar) (st : State) :
    (l.foldl (fun s v => (debug_record_variable s v.name v.typ v.kind v.val).1) st)
      = { st with
          events := st.events
            ++ l.map (fun v => Event.recordVariable v.name v.typ v.kind v.val) } := by
  induction l generalizing st with
  | nil => simp
  | cons v rest ih =>
    simp only [List.foldl_cons, List.map_cons]
    rw [ih]
    simp [debug_record_variable, emit]

theorem emit_pending_spec (st : State) :
    (stab_emit_pending_vars st).1
      = { st with
          pending := []
          events := st.events
            ++ st.pending.map (fun v => Event.recordVariable v.name v.typ v.kind v.val) } := by
  simp only [stab_emit_pending_vars]
  rw [emit_pending_fold]

/-- C3 (amended): variables queued inside a function are flushed exactly
once, in reverse (LIFO) order of queueing — the pending list is a stack
and the flush walks it from its head — and a second flush with no
intervening queueing emits nothing. -/
theorem pending_vars_flush_lifo
    (st : State) (vs : List PendingVar)
    (hin : st.within_function = true)
    (hgcc : ¬ (st.gcc_compiled = 0 ∧ st.n_opt_found = true))
    (hkinds : ∀ v ∈ vs, v.kind ≠ .global ∧ v.kind ≠ .static)
    (hpend : st.pending = []) :
    (queueVars st vs).pending = vs.reverse
      ∧ (stab_emit_pending_vars (queueVars st vs)).1.events
          = st.events
            ++ vs.reverse.map (fun v => Event.recordVariable v.name v.typ v.kind v.val)
      ∧ (stab_emit_pending_vars (queueVars st vs)).1.pending = []
      ∧ (stab_emit_pending_vars (stab_emit_pending_vars (queueVars st vs)).1).1.events
          = (stab_emit_pending_vars (queueVars st vs)).1.events := by
  have hq := queueVars_state st vs hin hgcc hkinds
  have hp : (queueVars st vs).pending = vs.reverse := by rw [hq.1, hpend]; simp
  refine ⟨hp, ?_, ?_, ?_⟩
  · rw [emit_pending_spec]
    simp only [hp, hq.2]
  · rw [emit_pending_spec]
  · rw [emit_pending_spec (stab_emit_pending_vars (queueVars st vs)).1,
      emit_pending_spec (queueVars st vs)]
    simp

/-- C3 counterexample: queueing `u` then `v` inside a function and
flushing emits `v` before `u` — the reverse of the claimed FIFO order. -/
theorem pending_vars_fifo_counterexample :
    (stab_emit_pending_vars (stab_record_variable (stab_record_variable
        { initState with within_function := true, gcc_compiled := 2 }
        "u".data (.intT 4 false) .loc 1).1
        "v".data (.intT 4 false) .loc 2).1).1.events
      = [.recordVariable "v".data (.intT 4 false) .loc 2,
         .recordVariable "u".data (.intT 4 false) .loc 1]
    ∧ (stab_emit_pending_vars (stab_record_variable (stab_record_variable
        { initState with within_function := true, gcc_compiled := 2 }
        "u".data (.intT 4 false) .loc 1).1
        "v".data (.intT 4 false) .loc 2).1).1.events
      ≠ [.recordVariable "u".data (.intT 4 false) .loc 1,
         .recordVariable "v".data (.intT 4 false) .loc 2] := by
  refine ⟨rfl, ?_⟩
  intro hcontra
  rw [show (stab_emit_pending_vars (stab_record_variable (stab_record_variable
      { initState with within_function := true, gcc_compiled := 2 }
      "u".data (.intT 4 false) .loc 1).1
      "v".data (.intT 4 false) .loc 2).1).1.events
    = [.recordVariable "v".data (.intT 4 false) .loc 2,
       .recordVariable "u".data (.intT 4 false) .loc 1] from rfl] at hcontra
  simp at hcontra

/-- C3 (amended) witness: the LIFO flush at the concrete two-variable
queue `u`, `v`. -/
theorem pending_vars_flush_lifo_witness :
    (queueVars { initState with within_function := true, gcc_compiled := 2 }
        [⟨"u".data, .intT 4 false, .loc, 1⟩, ⟨"v".data, .intT 4 false, .loc, 2⟩]).pending
      = [⟨"v".data, .intT 4 false, .loc, 2⟩, ⟨"u".data, .intT 4 false, .loc, 1⟩]
      ∧ (stab_emit_pending_vars (queueVars
          { initState with within_function := true, gcc_compiled := 2 }
          [⟨"u".data, .intT 4 false, .loc, 1⟩,
            ⟨"v".data, .intT 4 false, .loc, 2⟩])).1.events
        = [.recordVariable "v".data (.intT 4 false) .loc 2,
           .recordVariable "u".data (.intT 4 false) .loc 1] := by
  have := pending_vars_flush_lifo
    { initState with within_function := true, gcc_compiled := 2 }
    [⟨"u".data, .intT 4 false, .loc, 1⟩, ⟨"v".data, .intT 4 false, .loc, 2⟩]
    rfl (by simp [initState])
    (by
      intro v hv
      simp only [List.mem_cons, List.mem_singleton] at hv
      rcases hv with rfl | rfl | h
      · exact ⟨by simp, by simp⟩
      · exact ⟨by simp, by simp⟩
      · simp at h)
    rfl
  exact ⟨this.1, by rw [this.2.1]; rfl⟩

theorem getD_of_get? {α : Type} [Inhabited α] (l : List α) (i : Nat) (x : α)
    (h : l.get? i = some x) : l.getD i default = x := by
  rw [List.getD_eq_getElem?_getD, ← List.get?_eq_getElem?, h]
  rfl

/-- C7: an N_EXCL whose (name, hash) pair is matched by a frame on the
session's frame list makes the new file index share that frame's type
table (the very table value, no copy); when no frame matches, the new
file gets a NULL table after an "Undefined N_EXCL" warning, and both
outcomes report success.  The matched frame is the first match in
`bincl_list` order, which holds frames most-recently-opened first. -/
theorem excl_table_reuse (st : State) (name : List Char) (hash : Nat) :
    (∀ i frame,
        (st.bincl_list.find? fun j =>
          match st.binclArena.get? j with
          | some l => l.hash == hash && l.name == name
          | none => false) = some i →
        st.binclArena.get? i = some frame →
        find_excl st name hash
          = ({ st with
              files := st.files + 1
              file_types := st.file_types ++ [frame.file_types] }, true))
      ∧ ((st.bincl_list.find? fun j =>
          match st.binclArena.get? j with
          | some l => l.hash == hash && l.name == name
          | none => false) = none →
        find_excl st name hash
          = (emit { st with
              files := st.files + 1
              file_types := st.file_types ++ [[]] }
              (.warnStab "Undefined N_EXCL"), true)) := by
  constructor
  · intro i frame hfind hget
    simp only [find_excl, hfind]
    rw [getD_of_get? _ _ _ hget]
  · intro hfind
    simp only [find_excl, hfind]

/-- C7 witness: a session with one completed frame (name "h.h", hash 42,
table with one chunk) reuses that table on a matching N_EXCL and creates
a NULL table on a hash mismatch. -/
theorem excl_table_reuse_witness :
    (find_excl
        { initState with
          binclArena := [⟨"h.h".data, 42, 1, [⟨0, List.replicate 16 none⟩]⟩]
          bincl_list := [0] } "h.h".data 42).1.file_types
      = [[], [⟨0, List.replicate 16 none⟩]]
      ∧ (find_excl
        { initState with
          binclArena := [⟨"h.h".data, 42, 1, [⟨0, List.replicate 16 none⟩]⟩]
          bincl_list := [0] } "h.h".data 43)
      = (emit { initState with
            binclArena := [⟨"h.h".data, 42, 1, [⟨0, List.replicate 16 none⟩]⟩]
            bincl_list := [0]
            files := 2
            file_types := [[], []] } (.warnStab "Undefined N_EXCL"), true) := by
  constructor
  · rw [(excl_table_reuse
        { initState with
          binclArena := [⟨"h.h".data, 42, 1, [⟨0, List.replicate 16 none⟩]⟩]
          bincl_list := [0] } "h.h".data 42).1 0
        ⟨"h.h".data, 42, 1, [⟨0, List.replicate 16 none⟩]⟩ (by rfl) rfl]
    rfl
  · rw [(excl_table_reuse
        { initState with
          binclArena := [⟨"h.h".data, 42, 1, [⟨0, List.replicate 16 none⟩]⟩]
          bincl_list := [0] } "h.h".data 43).2 (by rfl)]
    rfl

/-- C10: an N_EINCL with no open include frame is tolerated: `pop_bincl`
leaves the state unchanged and returns the main file name, which the
dispatcher installs as the current source, and the record succeeds. -/
theorem unbalanced_eincl_tolerated (st : State) (value : Nat) (s : List Char)
    (hso : st.so_string = none) (hstack : st.bincl_stack = []) :
    parse_stab st .n_eincl value s
        = (emit st (.startSource st.main_filename), .ok ())
      ∧ pop_bincl st = (st, st.main_filename) := by
  have hpop : pop_bincl st = (st, st.main_filename) := by
    simp only [pop_bincl, hstack]
  refine ⟨?_, hpop⟩
  simp only [parse_stab, hso, Option.isSome_none, Bool.false_eq_true, false_and,
    if_false, hpop, debug_start_source]

/-- C10 witness: the empty-stack N_EINCL at the fresh session state. -/
theorem unbalanced_eincl_tolerated_witness :
    parse_stab initState .n_eincl 7 "x.h".data
        = (emit initState (.startSource initState.main_filename), .ok ())
      ∧ pop_bincl initState = (initState, initState.main_filename) :=
  unbalanced_eincl_tolerated initState 7 "x.h".data rfl rfl

theorem no_colon_findIdx (cs : List Char) (h : ':' ∉ cs) :
    cs.findIdx? (· = ':') = none := by
  induction cs with
  | nil => rfl
  | cons c rest ih =>
    have hc : ¬ (c = ':') := fun he => h (by simp [he])
    have hr : ':' ∉ rest := fun he => h (by simp [he])
    simp [List.findIdx?_cons, hc, ih hr]

/-- C9: a descriptor string containing no colon at all makes
`parse_stab_string` return success immediately: no diagnostic, no sink
call, no state change whatsoever. -/
theorem no_colon_silently_ignored (fuel : Nat) (st : State)
    (dm : List Char → Nat → Option (List DebugType × Bool))
    (cs : List Char) (h : ':' ∉ cs) :
    parse_stab_string fuel st dm cs = (st, .ok ()) := by
  simp only [parse_stab_string, no_colon_findIdx cs h]

/-- C9 witness: the compiler-marker text "gcc2_compiled." (no colon) is
silently accepted with the state untouched. -/
theorem no_colon_silently_ignored_witness :
    parse_stab_string 100 initState (fun _ _ => none) "gcc2_compiled.".data
      = (initState, .ok ()) :=
  no_colon_silently_ignored 100 initState (fun _ _ => none)
    "gcc2_compiled.".data (by decide)

/-- C8: an overflowing numeric literal is non-fatal.  `parse_number`
returns zero and reports the overflow through the caller's flag when one
is passed, or as a direct warning otherwise, consuming the literal either
way; and a range record whose upper bound overflows decodes to a range
type (with the clamped bound) after one warning instead of aborting. -/
theorem numeric_overflow_nonfatal (st : State) (cs : List Char)
    (hne : cs.isEmpty = false)
    (hov : (strtoul64 cs).2.1 = true) :
    parse_number st cs true = (st, 0, true, (strtoul64 cs).2.2)
      ∧ parse_number st cs false
          = (emit st (.warnStab "numeric overflow"), 0, false, (strtoul64 cs).2.2)
      ∧ (parse_stab_range_type initState none
          "1;0;99999999999999999999999999;".data (0, 2)).2.1
          = some (.rangeT (.indirect (.typeSlot 0 1) none) 0 0)
      ∧ (parse_stab_range_type initState none
          "1;0;99999999999999999999999999;".data (0, 2)).1.events
          = [.warnStab "numeric overflow"] := by
  rcases hs : strtoul64 cs with ⟨v, ov, rest⟩
  rw [hs] at hov
  simp only at hov
  subst hov
  exact ⟨by simp [parse_number, hne, hs], by simp [parse_number, hne, hs], rfl, rfl⟩

/-- C8 witness: the twenty-digit literal overflows 64 bits; both reporting
modes of `parse_number` clamp to zero and leave the cursor after the
digits. -/
theorem numeric_overflow_nonfatal_witness :
    parse_number initState "99999999999999999999;".data true
        = (initState, 0, true, ";".data)
      ∧ parse_number initState "99999999999999999999;".data false
        = (emit initState (.warnStab "numeric overflow"), 0, false, ";".data) := by
  have h := numeric_overflow_nonfatal initState "99999999999999999999;".data rfl
    (by decide)
  exact ⟨h.1, h.2.1⟩

/-- C2 counterexample: a self-referential range with bounds (0,127)
produces a SIGNED 1-byte integer (`debug_make_int_type (dhandle, 1,
false)`, comment "A range of 0 to 127 is char"), not the unsigned 1-byte
integer the claim states. -/
theorem range_0_127_signed_counterexample :
    (parse_stab_range_type initState none "2;0;127;".data (0, 2)).2.1
        = some (DebugType.intT 1 false)
      ∧ (parse_stab_range_type initState none "2;0;127;".data (0, 2)).2.1
        ≠ some (DebugType.intT 1 true) := by
  refine ⟨rfl, ?_⟩
  intro h
  rw [show (parse_stab_range_type initState none "2;0;127;".data (0, 2)).2.1
      = some (DebugType.intT 1 false) from rfl] at h
  simp at h

/-- C2 (amended): the range-bound table with the signedness the code
actually produces: a self-referential (0,0) is void; a self-referential
(0,127) is a SIGNED 1-byte integer; (0,-1) under the name hint "long long
int" is a SIGNED 8-byte integer, under "long long unsigned int" an
unsigned 8-byte integer, and otherwise an unsigned 4-byte integer; the
signed magic bound pairs (-0x80..0x7f up to the 64-bit analogue) give the
signed integer of the matching width. -/
theorem range_bound_synthesis_amended
    (st : State) (rn : Int × Int) (tname : Option (List Char)) (orig : List Char)
    (hname : tname ≠ some "long long int".data
      ∧ tname ≠ some "long long unsigned int".data) :
    (rangeMain st tname true rn none 0 0 orig).2 = some .voidT
      ∧ (rangeMain st tname true rn none 0 127 orig).2 = some (.intT 1 false)
      ∧ (rangeMain st (some "long long int".data) true rn none 0 (-1) orig).2
          = some (.intT 8 false)
      ∧ (rangeMain st (some "long long unsigned int".data) true rn none 0 (-1) orig).2
          = some (.intT 8 true)
      ∧ (rangeMain st tname true rn none 0 (-1) orig).2 = some (.intT 4 true)
      ∧ (rangeMain st tname false rn none (-0x80) 0x7f orig).2 = some (.intT 1 false)
      ∧ (rangeMain st tname false rn none (-0x8000) 0x7fff orig).2
          = some (.intT 2 false)
      ∧ (rangeMain st tname false rn none (-0x80000000) 0x7fffffff orig).2
          = some (.intT 4 false)
      ∧ (rangeMain st tname false rn none (-0x8000000000000000)
          0x7fffffffffffffff orig).2 = some (.intT 8 false) := by
  refine ⟨rfl, rfl, rfl, rfl, ?_, rfl, rfl, rfl, rfl⟩
  simp [rangeMain, hname.1, hname.2]

/-- C2 (amended) witness: the default-hint row at concrete arguments
(no type name, subrange base (0,1)). -/
theorem range_bound_synthesis_amended_witness :
    (rangeMain initState none true (0, 1) none 0 (-1) []).2
      = some (.intT 4 true) :=
  (range_bound_synthesis_amended initState (0, 1) none []
    ⟨by decide, by decide⟩).2.2.2.2.1

theorem findIdx_append_first {p : Char → Bool} (l1 l2 : List Char) (ch : Char)
    (hp : ∀ c ∈ l1, p c = false) (hch : p ch = true) (i : Nat) :
    List.findIdx? p (l1 ++ ch :: l2) i = some (i + l1.length) := by
  induction l1 generalizing i with
  | nil => simp [List.findIdx?_cons, hch]
  | cons a t ih =>
    have ha : p a = false := hp a (by simp)
    have := ih (fun c hc => hp c (by simp [hc])) (i + 1)
    simp only [List.cons_append, List.findIdx?_cons, ha, Bool.false_eq_true,
      if_false, this, List.length_cons]
    congr 1
    omega

theorem getD_append_ge {α : Type} (l1 l2 : List α) (i : Nat) (d : α) :
    (l1 ++ l2).getD (l1.length + i) d = l2.getD i d := by
  induction l1 with
  | nil => simp
  | cons a t ih =>
    have : t.length + 1 + i = (t.length + i) + 1 := by omega
    simp only [List.cons_append, List.length_cons, this, List.getD_cons_succ]
    exact ih

theorem drop_append_ge {α : Type} (l1 l2 : List α) (i : Nat) :
    (l1 ++ l2).drop (l1.length + i) = l2.drop i := by
  induction l1 with
  | nil => simp
  | cons a t ih =>
    have : t.length + 1 + i = (t.length + i) + 1 := by omega
    simp only [List.cons_append, List.length_cons, this, List.drop_succ_cons]
    exact ih

theorem toInt32_small (v : Nat) (hv : v < 2 ^ 31) : toInt32 v = (v : Int) := by
  have h32 : v % 2 ^ 32 = v := Nat.mod_eq_of_lt (by omega)
  simp only [toInt32, h32, if_pos hv, Nat.add_zero, toSigned64,
    if_pos (show v < 2 ^ 63 by omega)]

theorem toUInt32Nat_natCast (v : Nat) (hv : v < 2 ^ 32) :
    toUInt32Nat (v : Int) = v := by
  simp only [toUInt32Nat]
  rw [Int.emod_eq_of_lt (by positivity) (by exact_mod_cast hv)]
  exact Int.toNat_natCast v

theorem getD_some_lt (l : List (Option DebugType)) (i : Nat) (a : DebugType)
    (h : l.getD i none = some a) : i < l.length := by
  by_contra hge
  rw [List.getD_eq_default _ _ (by omega)] at h
  exact Option.noConfusion h

theorem chunkRead_chunkWrite_of_some (X : List StabTypesChunk) (t : Nat)
    (a b : DebugType) (h : chunkRead X t = some a) :
    chunkRead (chunkWrite X t b) t = some b := by
  induction X with
  | nil => simp [chunkRead] at h
  | cons c rest ih =>
    by_cases h1 : c.base_index < chunkBase t
    · simp only [chunkRead, if_pos h1] at h
      simp only [chunkWrite, chunkRead, if_pos h1]
      exact ih h
    · by_cases h2 : c.base_index = chunkBase t
      · simp only [chunkRead, if_neg h1, if_pos h2] at h
        simp only [chunkWrite, if_neg h1, if_pos h2]
        have hlt : t - c.base_index < c.types.length := getD_some_lt _ _ _ h
        simp only [chunkRead, if_neg h1, if_pos h2]
        exact getD_set_self _ _ _ _ hlt
      · simp only [chunkRead, if_neg h1, if_neg h2] at h
        exact Option.noConfusion h

theorem parse_stab_type_number_digits (st : State) (d0 : Char) (ds' rest : List Char)
    (v : Nat) (hd0 : isDigitC d0 = true)
    (hnum : strtoul64 (d0 :: ds' ++ rest) = (v, false, rest)) (hv : v < 2 ^ 31) :
    parse_stab_type_number st (d0 :: ds' ++ rest) = (st, some ((0, (v : Int)), rest)) := by
  have hne : d0 ≠ '(' := by
    intro he
    rw [he] at hd0
    exact absurd hd0 (by decide)
  simp only [List.cons_append] at hnum
  simp [parse_stab_type_number, parse_number, peek, hne, hnum, toInt32_small v hv]

theorem find_slot_core (st : State) (tn : Int × Int) :
    (stab_find_slot st tn).1.tagArena = st.tagArena
      ∧ (stab_find_slot st tn).1.tagList = st.tagList
      ∧ (stab_find_slot st tn).1.sinkTags = st.sinkTags
      ∧ (stab_find_slot st tn).1.self_crossref = st.self_crossref
      ∧ (stab_find_slot st tn).1.files = st.files
      ∧ (stab_find_slot st tn).1.file_types.length = st.file_types.length := by
  simp only [stab_find_slot]
  split
  · simp [emit]
  · simp

theorem record_type_core (st : State) (tn : Int × Int) (h : DebugType) :
    (stab_record_type st tn h).1.tagArena = st.tagArena
      ∧ (stab_record_type st tn h).1.tagList = st.tagList
      ∧ (stab_record_type st tn h).1.sinkTags = st.sinkTags
      ∧ (stab_record_type st tn h).1.self_crossref = st.self_crossref
      ∧ (stab_record_type st tn h).1.files = st.files
      ∧ (stab_record_type st tn h).1.file_types.length = st.file_types.length := by
  have hc := find_slot_core st tn
  simp only [stab_record_type]
  rcases hfs : stab_find_slot st tn with ⟨s, o⟩
  rw [hfs] at hc
  simp only at hc
  rcases o with _ | ⟨f, t⟩
  · simpa using hc
  · simpa [writeSlot] using hc

theorem readSlot_writeSlot_of_some (st : State) (f t : Nat) (a b : DebugType)
    (hfl : f < st.file_types.length) (h : readSlot st f t = some a) :
    readSlot (writeSlot st f t b) f t = some b := by
  simp only [readSlot, writeSlot] at h ⊢
  rw [getD_set_self _ _ _ _ hfl]
  exact chunkRead_chunkWrite_of_some _ _ _ _ h

theorem wfChunks_of_file_types_eq (st st' : State)
    (h : st'.file_types = st.file_types) (hwf : WFChunks st) : WFChunks st' := by
  intro g c hc
  rw [h] at hc
  exact hwf g c hc

theorem stab_find_tagged_type_fresh (st : State) (nm : List Char) (kind : TagKind)
    (hsink : debug_find_tagged_type st nm = none)
    (htag : st.tagList.find?
      (fun i => (st.tagArena.getD i default).name == nm) = none) :
    stab_find_tagged_type st nm kind
      = ({ st with
            tagArena := st.tagArena
              ++ [⟨nm, kind, none, .indirect (.tagSlot st.tagArena.length) (some nm)⟩]
            tagList := st.tagArena.length :: st.tagList },
          .indirect (.tagSlot st.tagArena.length) (some nm)) := by
  simp only [stab_find_tagged_type, hsink, htag]

theorem parseDescr_x_self (pf : Nat) (st : State) (nm : List Char) (k : Char)
    (kind : TagKind) (tn : Int × Int) (size : Option Nat) (stringp : Bool)
    (orig : List Char) (slotOut : Option (Nat × Nat))
    (hcolon : ':' ∉ nm)
    (hkk : (k = 's' ∧ kind = .structK) ∨ (k = 'u' ∧ kind = .unionK)
      ∨ (k = 'e' ∧ kind = .enumK)) :
    parseDescr (pf + 1) st (some nm) ('x' :: k :: nm ++ [':']) tn size stringp
        orig slotOut
      = finishType
          (stab_find_tagged_type { st with self_crossref := true } nm kind).1
          tn size
          (.ok (stab_find_tagged_type { st with self_crossref := true } nm kind).2)
          [] slotOut := by
  have hfind : List.findIdx? (fun c => decide (c = ':')) (nm ++ [':']) 0
      = some nm.length := by
    have := findIdx_append_first (p := fun c => decide (c = ':')) nm [] ':'
      (fun c hc => decide_eq_false (fun he => hcolon (he ▸ hc))) (by decide) 0
    simpa using this
  have hgetD : (nm ++ [':']).getD (nm.length + 1) '\x00' = '\x00' :=
    List.getD_eq_default _ _ (by simp)
  have hdrop : (nm ++ [':']).drop (nm.length + 1) = [] := by
    have h := drop_append_ge nm [':'] 1
    rw [h]
    rfl
  have htake : (nm ++ [':']).take nm.length = nm := List.take_left nm [':']
  have hgetD2 : (nm ++ [':'])[nm.length + 1]?.getD '\x00' = '\x00' := by
    rw [← List.getD_eq_getElem?_getD]
    exact hgetD
  rcases hkk with ⟨rfl, rfl⟩ | ⟨rfl, rfl⟩ | ⟨rfl, rfl⟩ <;>
    rcases hres : stab_find_tagged_type { st with self_crossref := true } nm _
      with ⟨s1, d1⟩ <;>
    simp [parseDescr, peek, hfind, hgetD2, hdrop, htake, hres] <;>
    rcases hq : List.findIdx? (fun x => decide (x = '<')) nm with _ | q1 <;>
    simp [hq, htake, hdrop, hgetD2, hres]

theorem parse_stab_type_self (pf : Nat) (st : State) (nm : List Char)
    (d0 : Char) (ds' : List Char) (k : Char) (v : Nat)
    (hd0 : isDigitC d0 = true)
    (hnum : strtoul64 (d0 :: ds' ++ ('=' :: 'x' :: k :: nm ++ [':']))
        = (v, false, '=' :: 'x' :: k :: nm ++ [':']))
    (hv : v < 2 ^ 31)
    (hfiles : 0 < st.files) :
    parse_stab_type (pf + 2) st (some nm)
        (d0 :: ds' ++ ('=' :: 'x' :: k :: nm ++ [':'])) true
      = parseDescr (pf + 1)
          (stab_find_slot { st with self_crossref := false } (0, (v : Int))).1
          (some nm) ('x' :: k :: nm ++ [':']) (0, (v : Int)) none false
          (d0 :: ds' ++ ('=' :: 'x' :: k :: nm ++ [':']))
          (some (0, v)) := by
  have h0 : toUInt32Nat 0 = 0 := rfl
  have hvv : toUInt32Nat (v : Int) = v := toUInt32Nat_natCast v (by omega)
  have hslot := find_slot_ok { st with self_crossref := false } (0, (v : Int))
    (by exact hfiles)
  have hnumlem := parse_stab_type_number_digits { st with self_crossref := false }
    d0 ds' ('=' :: 'x' :: k :: nm ++ [':']) v hd0 hnum hv
  simp only [List.cons_append] at hnumlem ⊢
  simp [parse_stab_type, peek, hd0, hnumlem, hslot, h0, hvv, parseAttrs,
    Int.natCast_nonneg]

theorem ensureChunk_idem (L : List StabTypesChunk) (tb : Nat) :
    ensureChunk (ensureChunk L tb) tb = ensureChunk L tb := by
  induction L with
  | nil => simp [ensureChunk]
  | cons c rest ih =>
    by_cases h1 : c.base_index < tb
    · simp only [ensureChunk, if_pos h1, ih]
    · by_cases h2 : c.base_index = tb
      · simp only [ensureChunk, if_neg h1, if_pos h2]
      · simp only [ensureChunk, if_neg h1, if_neg h2]
        simp [ensureChunk]

/-- C6 (general): for every self-referential tag-definition record
`NAME:T NUM =x K NAME :` — any tag name with no colon (and not starting
with the `$`/space encodings handled separately), any decimal type number
`NUM` of value `v`, any cross-reference kind letter `K ∈ {s,u,e}` — decoded
in any well-formed state in which the tag is not yet known to the sink or
pending (the fresh forward-reference scenario), `parse_stab_string`
succeeds without recursing into the definition: the cross-reference
allocates a fresh undefined-tag entry and resolves to its indirect
placeholder, the tagged definition is written to type slot `(0,v)`, and —
because `parse_stab_type` set the self-crossref flag — the `T` case skips
the back-patch: the entry's slot stays NULL and it stays on the
undefined-tag list, so the placeholder remains incomplete instead of
closing the cycle. -/
theorem self_crossref_leaves_placeholder
    (fuel : Nat) (st : State)
    (dm : List Char → Nat → Option (List DebugType × Bool))
    (n0 : Char) (nm' : List Char) (d0 : Char) (ds' : List Char)
    (k : Char) (v : Nat) (kind : TagKind)
    (hfuel : 2 ≤ fuel)
    (h0dollar : n0 ≠ '$')
    (hsp : ¬ (n0 = ' ' ∧ nm' = []))
    (hcolon : ':' ∉ (n0 :: nm'))
    (hd0 : isDigitC d0 = true)
    (hnum : strtoul64 (d0 :: ds' ++ ('=' :: 'x' :: k :: (n0 :: nm') ++ [':']))
        = (v, false, '=' :: 'x' :: k :: (n0 :: nm') ++ [':']))
    (hv : v < 2 ^ 31)
    (hkk : (k = 's' ∧ kind = .structK) ∨ (k = 'u' ∧ kind = .unionK)
      ∨ (k = 'e' ∧ kind = .enumK))
    (hsink : debug_find_tagged_type st (n0 :: nm') = none)
    (htag : st.tagList.find?
      (fun i => (st.tagArena.getD i default).name == (n0 :: nm')) = none)
    (hfiles : 0 < st.files)
    (hlen : st.file_types.length = st.files)
    (hwf : WFChunks st) :
    (parse_stab_string fuel st dm
        (selfCrossrefRecord (n0 :: nm') (d0 :: ds') k)).2 = .ok ()
      ∧ (parse_stab_string fuel st dm
          (selfCrossrefRecord (n0 :: nm') (d0 :: ds') k)).1.tagArena
        = st.tagArena ++ [⟨n0 :: nm', kind, none,
            .indirect (.tagSlot st.tagArena.length) (some (n0 :: nm'))⟩]
      ∧ (parse_stab_string fuel st dm
          (selfCrossrefRecord (n0 :: nm') (d0 :: ds') k)).1.tagList
        = st.tagArena.length :: st.tagList
      ∧ readSlot (parse_stab_string fuel st dm
          (selfCrossrefRecord (n0 :: nm') (d0 :: ds') k)).1 0 v
        = some (.taggedT (n0 :: nm')
            (.indirect (.tagSlot st.tagArena.length) (some (n0 :: nm'))))
      ∧ resolveIndirect (parse_stab_string fuel st dm
          (selfCrossrefRecord (n0 :: nm') (d0 :: ds') k)).1
          (.indirect (.tagSlot st.tagArena.length) (some (n0 :: nm'))) = none := by
  obtain ⟨pf, rfl⟩ : ∃ pf, fuel = pf + 2 := ⟨fuel - 2, by omega⟩
  have hvv : toUInt32Nat (v : Int) = v := toUInt32Nat_natCast v (by omega)
  have h0' : toUInt32Nat (0 : Int) = 0 := rfl
  have hlt0 : 0 < st.file_types.length := by omega
  -- the parse_stab_type stage, computed to an explicit state
  have ha := parse_stab_type_self pf st (n0 :: nm') d0 ds' k v hd0 hnum hv hfiles
  rw [parseDescr_x_self pf _ (n0 :: nm') k kind _ _ _ _ _ hcolon hkk] at ha
  have hAe : (stab_find_slot { st with self_crossref := false } (0, (v : Int))).1
      = { st with
            self_crossref := false
            file_types := st.file_types.set 0
              (ensureChunk (st.file_types.getD 0 []) (chunkBase v)) } := by
    rw [find_slot_ok _ _ (by exact hfiles)]
    simp [hvv, h0']
  rw [hAe] at ha
  have hflat : ({ { st with
        self_crossref := false
        file_types := st.file_types.set 0
          (ensureChunk (st.file_types.getD 0 []) (chunkBase v)) }
      with self_crossref := true } : State)
      = { st with
            self_crossref := true
            file_types := st.file_types.set 0
              (ensureChunk (st.file_types.getD 0 []) (chunkBase v)) } := rfl
  rw [hflat] at ha
  have hfr : stab_find_tagged_type
      { st with
        self_crossref := true
        file_types := st.file_types.set 0
          (ensureChunk (st.file_types.getD 0 []) (chunkBase v)) }
      (n0 :: nm') kind
      = ({ st with
            self_crossref := true
            file_types := st.file_types.set 0
              (ensureChunk (st.file_types.getD 0 []) (chunkBase v))
            tagArena := st.tagArena ++ [⟨n0 :: nm', kind, none,
              .indirect (.tagSlot st.tagArena.length) (some (n0 :: nm'))⟩]
            tagList := st.tagArena.length :: st.tagList },
          .indirect (.tagSlot st.tagArena.length) (some (n0 :: nm'))) := by
    rw [stab_find_tagged_type_fresh
      { st with
        self_crossref := true
        file_types := st.file_types.set 0
          (ensureChunk (st.file_types.getD 0 []) (chunkBase v)) }
      (n0 :: nm') kind hsink htag]
  rw [hfr] at ha
  simp only [] at ha
  have hrt : stab_record_type
      { st with
        self_crossref := true
        file_types := st.file_types.set 0
          (ensureChunk (st.file_types.getD 0 []) (chunkBase v))
        tagArena := st.tagArena ++ [⟨n0 :: nm', kind, none,
          .indirect (.tagSlot st.tagArena.length) (some (n0 :: nm'))⟩]
        tagList := st.tagArena.length :: st.tagList } (0, (v : Int))
      (.indirect (.tagSlot st.tagArena.length) (some (n0 :: nm')))
      = ({ st with
            self_crossref := true
            file_types := st.file_types.set 0
              (chunkWrite (ensureChunk (st.file_types.getD 0 []) (chunkBase v)) v
                (.indirect (.tagSlot st.tagArena.length) (some (n0 :: nm'))))
            tagArena := st.tagArena ++ [⟨n0 :: nm', kind, none,
              .indirect (.tagSlot st.tagArena.length) (some (n0 :: nm'))⟩]
            tagList := st.tagArena.length :: st.tagList }, true) := by
    rw [record_type_ok _ _ _ (by exact hfiles)]
    rw [find_slot_ok _ _ (by exact hfiles)]
    simp [writeSlot, h0', hvv, List.set_set, ensureChunk_idem, getD_set_self, hlt0]
  have hfin : finishType
      { st with
        self_crossref := true
        file_types := st.file_types.set 0
          (ensureChunk (st.file_types.getD 0 []) (chunkBase v))
        tagArena := st.tagArena ++ [⟨n0 :: nm', kind, none,
          .indirect (.tagSlot st.tagArena.length) (some (n0 :: nm'))⟩]
        tagList := st.tagArena.length :: st.tagList } (0, (v : Int)) none
      (.ok (.indirect (.tagSlot st.tagArena.length) (some (n0 :: nm')))) []
      (some (0, v))
      = ({ st with
            self_crossref := true
            file_types := st.file_types.set 0
              (chunkWrite (ensureChunk (st.file_types.getD 0 []) (chunkBase v)) v
                (.indirect (.tagSlot st.tagArena.length) (some (n0 :: nm'))))
            tagArena := st.tagArena ++ [⟨n0 :: nm', kind, none,
              .indirect (.tagSlot st.tagArena.length) (some (n0 :: nm'))⟩]
            tagList := st.tagArena.length :: st.tagList },
          .ok (.indirect (.tagSlot st.tagArena.length) (some (n0 :: nm'))), [],
          some (0, v)) := by
    simp +decide only [finishType, hrt]
    simp
  rw [hfin] at ha
  -- navigation facts for the surrounding parse_stab_string
  have hrec : selfCrossrefRecord (n0 :: nm') (d0 :: ds') k
      = (n0 :: nm') ++ ':' :: 'T' ::
          ((d0 :: ds') ++ ('=' :: 'x' :: k :: (n0 :: nm') ++ [':'])) := by
    simp [selfCrossrefRecord]
  rw [hrec]
  have hfi : List.findIdx? (fun c => decide (c = ':'))
      ((n0 :: nm') ++ ':' :: 'T' ::
        ((d0 :: ds') ++ ('=' :: 'x' :: k :: (n0 :: nm') ++ [':']))) 0
      = some (n0 :: nm').length := by
    have h := findIdx_append_first (p := fun c => decide (c = ':')) (n0 :: nm')
      ('T' :: ((d0 :: ds') ++ ('=' :: 'x' :: k :: (n0 :: nm') ++ [':']))) ':'
      (fun c hc => decide_eq_false (fun he => hcolon (he ▸ hc))) (by decide) 0
    rw [h, Nat.zero_add]
  have hgdT : ((n0 :: nm') ++ ':' :: 'T' ::
      ((d0 :: ds') ++ ('=' :: 'x' :: k :: (n0 :: nm') ++ [':']))).getD
        ((n0 :: nm').length + 1) '\x00' = 'T' := by
    rw [getD_append_ge]
    rfl
  have hca : colonAdvance (pf + 2)
      ((n0 :: nm') ++ ':' :: 'T' ::
        ((d0 :: ds') ++ ('=' :: 'x' :: k :: (n0 :: nm') ++ [':'])))
      (n0 :: nm').length = some (n0 :: nm').length := by
    simp only [colonAdvance, hgdT]
    simp
  have hg0 : ((n0 :: nm') ++ ':' :: 'T' ::
      ((d0 :: ds') ++ ('=' :: 'x' :: k :: (n0 :: nm') ++ [':']))).getD 0 '\x00'
      = n0 := rfl
  have hdropA : ((n0 :: nm') ++ ':' :: 'T' ::
      ((d0 :: ds') ++ ('=' :: 'x' :: k :: (n0 :: nm') ++ [':']))).drop
        ((n0 :: nm').length + 1)
      = 'T' :: ((d0 :: ds') ++ ('=' :: 'x' :: k :: (n0 :: nm') ++ [':'])) := by
    rw [drop_append_ge]
    rfl
  have htake : ((n0 :: nm') ++ ':' :: 'T' ::
      ((d0 :: ds') ++ ('=' :: 'x' :: k :: (n0 :: nm') ++ [':']))).take
        (n0 :: nm').length = n0 :: nm' := List.take_left _ _
  have hd0t : d0 ≠ 't' := by
    intro he
    rw [he] at hd0
    exact absurd hd0 (by decide)
  have hTd : isDigitC 'T' = false := by decide
  have hname : ¬ ((n0 :: nm').length = 0 ∨ (n0 = ' ' ∧ (n0 :: nm').length = 1)) := by
    rintro (h | ⟨h1, h2⟩)
    · simp at h
    · simp at h2
      exact hsp ⟨h1, h2⟩
  simp only [List.cons_append] at ha
  have hrun : parse_stab_string (pf + 2) st dm
      ((n0 :: nm') ++ ':' :: 'T' ::
        ((d0 :: ds') ++ ('=' :: 'x' :: k :: (n0 :: nm') ++ [':'])))
      = ({ st with
            self_crossref := true
            file_types := st.file_types.set 0
              (chunkWrite
                (chunkWrite (ensureChunk (st.file_types.getD 0 []) (chunkBase v)) v
                  (.indirect (.tagSlot st.tagArena.length) (some (n0 :: nm'))))
                v (.taggedT (n0 :: nm')
                  (.indirect (.tagSlot st.tagArena.length) (some (n0 :: nm')))))
            tagArena := st.tagArena ++ [⟨n0 :: nm', kind, none,
              .indirect (.tagSlot st.tagArena.length) (some (n0 :: nm'))⟩]
            tagList := st.tagArena.length :: st.tagList
            sinkTags := st.sinkTags ++ [(n0 :: nm', .taggedT (n0 :: nm')
              (.indirect (.tagSlot st.tagArena.length) (some (n0 :: nm'))))] },
          .ok ()) := by
    simp +decide only [parse_stab_string, hfi, hca, hg0, hdropA, htake, hname,
      h0dollar, peek, List.headD_cons, List.tail_cons, hTd]
    simp +decide [ha, hd0t, debug_tag_type, writeSlot, List.set_set,
      getD_set_self, hlt0]
  rw [hrun]
  refine ⟨rfl, rfl, rfl, ?_, ?_⟩
  · simp only [readSlot]
    rw [getD_set_self _ _ _ _ hlt0]
    exact chunkRead_chunkWrite_of_some _ _ _ _
      (chunkWrite_read_self (st.file_types.getD 0 []) v
        (.indirect (.tagSlot st.tagArena.length) (some (n0 :: nm')))
        (fun c hc => hwf 0 c hc))
  · simp only [resolveIndirect]
    have hg := getD_append_ge st.tagArena
      [⟨n0 :: nm', kind, none,
        .indirect (.tagSlot st.tagArena.length) (some (n0 :: nm'))⟩] 0
      (⟨[], .illegal, none, .voidT⟩ : StabTag)
    rw [Nat.add_zero] at hg
    rw [hg]
    rfl

/-- C6 witness: the general self-crossref theorem at the concrete record
`fleep:T20=xsfleep:` decoded from the fresh initial state. -/
theorem self_crossref_leaves_placeholder_witness :
    (2 ≤ 100 ∧ isDigitC '2' = true ∧ 0 < initState.files)
      ∧ ((parse_stab_string 100 initState (fun _ _ => none)
            (selfCrossrefRecord "fleep".data "20".data 's')).2 = .ok ()
        ∧ (parse_stab_string 100 initState (fun _ _ => none)
            (selfCrossrefRecord "fleep".data "20".data 's')).1.tagArena
          = initState.tagArena ++ [⟨"fleep".data, .structK, none,
              .indirect (.tagSlot initState.tagArena.length) (some "fleep".data)⟩]
        ∧ (parse_stab_string 100 initState (fun _ _ => none)
            (selfCrossrefRecord "fleep".data "20".data 's')).1.tagList
          = initState.tagArena.length :: initState.tagList
        ∧ readSlot (parse_stab_string 100 initState (fun _ _ => none)
            (selfCrossrefRecord "fleep".data "20".data 's')).1 0 20
          = some (.taggedT "fleep".data
              (.indirect (.tagSlot initState.tagArena.length) (some "fleep".data)))
        ∧ resolveIndirect (parse_stab_string 100 initState (fun _ _ => none)
            (selfCrossrefRecord "fleep".data "20".data 's')).1
            (.indirect (.tagSlot initState.tagArena.length) (some "fleep".data))
          = none) :=
  ⟨⟨by decide, by decide, by decide⟩,
    self_crossref_leaves_placeholder 100 initState (fun _ _ => none)
      'f' "leep".data '2' ['0'] 's' 20 .structK
      (by decide) (by decide) (by decide) (by decide) (by decide)
      rfl (by decide) (Or.inl ⟨rfl, rfl⟩) rfl rfl
      (by decide) rfl initState_wf⟩

/-- C4 counterexample: a method group whose single variant is a stub
(`##1;` method type with no argument list) and whose physical name the
demangler rejects makes `parse_stab_members` fail outright — the variant
is not dropped with decoding continuing, contradicting the claim of a
local failure. -/
theorem demangle_failure_counterexample :
    (parse_stab_members 100 initState (fun _ _ => none) (some "T".data)
        "bar::##1;:zzz;2A.;;".data (0, 5)).2.1 = PResult.err := rfl

/-- C4 (amended): when the demangler yields no argument list for a stub's
physical name, `parse_stab_argtypes` returns the null type, and
`parse_stab_members` therefore fails (returns false), aborting decoding of
the whole record — its callers all propagate the failure. -/
theorem demangle_failure_fatal
    (st : State) (dm : List Char → Nat → Option (List DebugType × Bool))
    (class_type : DebugType) (fieldname : List Char) (tagname : Option (List Char))
    (return_type : DebugType) (argtypes : List Char) (cp vp : Bool)
    (hfail : ∀ pn pl, dm pn pl = none)
    (hne : argtypes.isEmpty = false)
    (hnd : ¬ ((argtypes.getD 0 '\x00' = '_'
          ∧ (argtypes.getD 1 '\x00' = '$' ∨ argtypes.getD 1 '\x00' = '.')
          ∧ argtypes.getD 2 '\x00' = '_')
        ∨ "__dt".data.isPrefixOf argtypes)) :
    (parse_stab_argtypes st dm class_type fieldname tagname return_type
        argtypes cp vp).2 = none
      ∧ (parse_stab_members 100 initState (fun _ _ => none) (some "T".data)
          "bar::##1;:zzz;2A.;;".data (0, 5)).2.1 = PResult.err := by
  refine ⟨?_, rfl⟩
  simp only [parse_stab_argtypes]
  split
  · rfl
  next pn pl hbuild =>
    split
    next hc =>
      rcases hc with he | hd
      · rw [hne] at he
        exact absurd he (by simp)
      · exact absurd hd hnd
    next hc =>
      rw [hfail pn pl]

/-- C4 (amended) witness: the fatal failure at the concrete stub record
`bar::##1;:zzz;2A.;;` with an always-failing demangler. -/
theorem demangle_failure_fatal_witness :
    (parse_stab_argtypes initState (fun _ _ => none)
        (.indirect (.typeSlot 0 5) none) "bar".data (some "T".data)
        (.indirect (.typeSlot 0 1) none) "zzz".data false false).2 = none :=
  (demangle_failure_fatal initState (fun _ _ => none)
    (.indirect (.typeSlot 0 5) none) "bar".data (some "T".data)
    (.indirect (.typeSlot 0 1) none) "zzz".data false false
    (fun _ _ => rfl) rfl (by decide)).1

end Stabs
